import Mathlib

/-!
Verification of the mobee-stats analytics pipeline.

The development shallowly embeds the pure aggregation and normalization
code of the repository:

* `MobeeStats` embeds `mobee_stats.py` — the free-text notification parser
  `parse_game_notification`, the statistics aggregator `analyze_games`
  (with each of its local computations exposed as a definition of the same
  name), the `main` filtering loop, and the last-30-days chart window from
  `create_charts`.
* `Mobee8` embeds the pure aggregation part of
  `mobee8_report_generator.py` (`fetch_variant_data`'s per-event loop,
  `get_score_bucket_7` / `get_score_bucket_12`, the daily map, the player
  statistics including the most-recent-avatar rule).

Python `dict`s (which preserve insertion order) are modelled as
association lists built by insert-if-absent-at-end folds; Python `set`s,
whose only observed property is cardinality, are modelled as
first-occurrence lists.  Scores are natural numbers (the parser only
produces `\d+` values), exact statistics (average, median) live in `ℚ`,
and timestamps are natural seconds (milliseconds for `Mobee8`), `Option`
when the field can be `None`.  Calendar dates: the source keys daily
statistics by `YYYY-MM-DD` strings and sorts them lexicographically,
which is order-isomorphic to the day ordinal `timestamp / 86400`; dates
are therefore modelled as integer day ordinals (`Mobee8` converts with
an explicit UTC timezone; `mobee_stats.py` uses `datetime.fromtimestamp`,
modelled here at its UTC deployment setting).
-/

namespace MobeeStats

/-- One parsed game notification, the result record of
`parse_game_notification` in `mobee_stats.py`. -/
structure Game where
  is_high_score : Bool
  score : ℕ
  city : String
  country : String
  platform : String
  user_code : String
  game_number : ℕ
  game_code : String
  timestamp : Option ℕ
deriving DecidableEq, Repr

/-- Python `max(scores)` on a nonempty list (`0` is never reached: the
source only evaluates `max` on nonempty input, after the empty-input
short-circuit). -/
def pyMax : List ℕ → ℕ
  | [] => 0
  | x :: xs => xs.foldl Nat.max x

/-- Python `min(scores)` on a nonempty list. -/
def pyMin : List ℕ → ℕ
  | [] => 0
  | x :: xs => xs.foldl Nat.min x

/-- Source: `scores = [g["score"] for g in games]` (analyze_games line 134). -/
def scores (games : List Game) : List ℕ := games.map (fun g => g.score)

/-- Source: `avg_score = sum(scores) / len(scores)` (line 135); exact rational. -/
def avg_score (games : List Game) : ℚ :=
  ((scores games).sum : ℚ) / ((scores games).length : ℚ)

/-- Source: `sorted_scores = sorted(scores)` (line 136).  Python's `sorted` is a
stable ascending sort; a stable sort's output is uniquely determined by
the input and the (total, transitive) relation, so the structurally
recursive `insertionSort` gives the same list. -/
def sorted_scores (games : List Game) : List ℕ :=
  (scores games).insertionSort (fun a b => a ≤ b)

/-- Source: `median_score` (line 137): middle element for odd length, exact mean of
the two middle elements for even length.  Python's in-bounds indexing is
modelled by `getD _ 0`; the default is never used on nonempty input. -/
def median_score (games : List Game) : ℚ :=
  let ss := sorted_scores games
  if ss.length % 2 = 1 then (ss.getD (ss.length / 2) 0 : ℚ)
  else ((ss.getD (ss.length / 2 - 1) 0 : ℚ) + (ss.getD (ss.length / 2) 0 : ℚ)) / 2

/-- Insert-if-absent at the end: one step of building a Python `dict`'s
key sequence (insertion order) or a `set` modelled as its first-occurrence
list. -/
def insertUniq (acc : List String) (x : String) : List String :=
  if acc.any (fun y => y = x) then acc else acc ++ [x]

/-- The distinct `user_code`s in first-occurrence order;
`set(g["user_code"] for g in games)` (line 130) in the source, where only
the cardinality of the set is consumed. -/
def uniquePlayerList (games : List Game) : List String :=
  (games.map (fun g => g.user_code)).foldl insertUniq []

/-- One step of building `player_games` (lines 152, 160-161):
`player_games[game["user_code"]].append(game["score"])` on a
`defaultdict(list)`, which creates the key at the end on first access. -/
def addGame (acc : List (String × List ℕ)) (g : Game) : List (String × List ℕ) :=
  if acc.any (fun p => p.1 = g.user_code) then
    acc.map (fun p => if p.1 = g.user_code then (p.1, p.2 ++ [g.score]) else p)
  else acc ++ [(g.user_code, [g.score])]

/-- Source: `player_games`: playerId → list of that player's scores in event
order; keys in first-occurrence order (Python dict insertion order). -/
def player_games (games : List Game) : List (String × List ℕ) :=
  games.foldl addGame []

/-- One step of building `player_high_scores` (lines 153, 162-163): the
`defaultdict(int)` read at line 162 creates the key with value `0`, then
the value is replaced when the event's score is strictly greater. -/
def addHighScore (acc : List (String × ℕ)) (g : Game) : List (String × ℕ) :=
  let acc1 := if acc.any (fun p => p.1 = g.user_code) then acc
              else acc ++ [(g.user_code, 0)]
  acc1.map (fun p =>
    if p.1 = g.user_code then (p.1, if g.score > p.2 then g.score else p.2) else p)

/-- Source: `player_high_scores`: playerId → maximum score, keys in
first-occurrence order. -/
def player_high_scores (games : List Game) : List (String × ℕ) :=
  games.foldl addHighScore []

/-- Source: `one_time_players = sum(1 for scores in player_games.values() if len(scores) == 1)` (line 178). -/
def one_time_players (games : List Game) : ℕ :=
  (player_games games).countP (fun p => decide (p.2.length = 1))

/-- Source: `returning_players = sum(1 for ... if len(scores) > 1)` (line 179). -/
def returning_players (games : List Game) : ℕ :=
  (player_games games).countP (fun p => decide (p.2.length > 1))

/-- Source: `super_engaged = sum(1 for ... if len(scores) >= 10)` (line 180). -/
def super_engaged (games : List Game) : ℕ :=
  (player_games games).countP (fun p => decide (p.2.length ≥ 10))

/-- The UTC calendar-day ordinal of a timestamp in epoch seconds. -/
def dayOf (ts : ℕ) : ℤ := (ts / 86400 : ℕ)

/-- Python truthiness of the optional timestamp, as tested by
`if game.get("timestamp"):` (line 190): `None` and `0` are both falsy. -/
def tsTruthy : Option ℕ → Bool
  | none => false
  | some t => decide (t ≠ 0)

/-- Accumulator entry of `daily_stats` (line 188): per-day game count and
the set of players, the latter as a first-occurrence list. -/
structure DailyAcc where
  day : ℤ
  games : ℕ
  players : List String
deriving DecidableEq, Repr

/-- One step of the daily-statistics loop (lines 189-193). -/
def addDaily (acc : List DailyAcc) (g : Game) : List DailyAcc :=
  if tsTruthy g.timestamp then
    let d := dayOf (g.timestamp.getD 0)
    if acc.any (fun e => e.day = d) then
      acc.map (fun e =>
        if e.day = d then
          { e with
          games := e.games + 1
          players := insertUniq e.players g.user_code }
        else e)
    else acc ++ [{ day := d, games := 1, players := [g.user_code] }]
  else acc

/-- The `daily_stats` defaultdict (lines 187-193), keys in insertion
order. -/
def daily_map (games : List Game) : List DailyAcc :=
  games.foldl addDaily []

/-- One row of `daily_data` (lines 196-202). -/
structure Daily where
  day : ℤ
  games : ℕ
  unique_players : ℕ
deriving DecidableEq, Repr

/-- Source: `daily_data`: `sorted(daily_stats.items())` (line 197) — sorting the
`YYYY-MM-DD` keys lexicographically is sorting the day ordinals
ascending — with the player sets collapsed to their cardinalities. -/
def daily_data (games : List Game) : List Daily :=
  ((daily_map games).insertionSort (fun a b => a.day ≤ b.day)).map
    (fun e => { day := e.day, games := e.games, unique_players := e.players.length })

/-- Source: `top_players_by_games` (lines 205-209): `sorted(player_games.items(),
key=len, reverse=True)[:10]`.  CPython's sort is stable and `reverse=True`
reverses the comparison, not the list, which is exactly a stable sort
with `le a b := len b ≤ len a`. -/
def top_players_by_games (games : List Game) : List (String × List ℕ) :=
  ((player_games games).insertionSort (fun a b => b.2.length ≤ a.2.length)).take 10

/-- Source: `top_players_by_score` (lines 212-216). -/
def top_players_by_score (games : List Game) : List (String × ℕ) :=
  ((player_high_scores games).insertionSort (fun a b => b.2 ≤ a.2)).take 10

/-- The score-range chain of lines 228-237, identical to
`get_score_bucket_7` of `mobee8_report_generator.py`. -/
def bucket7 (score : ℕ) : String :=
  if score ≤ 5 then "0-5"
  else if score ≤ 10 then "6-10"
  else if score ≤ 15 then "11-15"
  else if score ≤ 20 then "16-20"
  else "20+"

/-- The `score_ranges` dict literal of lines 219-225, in source order. -/
def SCORE_RANGES_INIT : List (String × ℕ) :=
  [("0-5", 0), ("6-10", 0), ("11-15", 0), ("16-20", 0), ("20+", 0)]

/-- Source: `score_ranges[label] += 1`. -/
def bumpRange (acc : List (String × ℕ)) (lbl : String) : List (String × ℕ) :=
  acc.map (fun p => if p.1 = lbl then (p.1, p.2 + 1) else p)

/-- The score-distribution loop of lines 227-237. -/
def score_ranges (games : List Game) : List (String × ℕ) :=
  (scores games).foldl (fun acc s => bumpRange acc (bucket7 s)) SCORE_RANGES_INIT

/-- The fields of the statistics snapshot returned by `analyze_games`
(lines 239-265) that are derived computations (the remaining fields of
the Python dict — city/country/platform counters and per-player location
info — are plain `Counter`s not referenced by any specified property). -/
structure Stats where
  total_games : ℕ
  unique_players : ℕ
  high_score_games : ℕ
  avg_score : ℚ
  median_score : ℚ
  max_score : ℕ
  min_score : ℕ
  one_time_players : ℕ
  returning_players : ℕ
  super_engaged : ℕ
  top_players_by_games : List (String × List ℕ)
  top_players_by_score : List (String × ℕ)
  score_distribution : List (String × ℕ)
  daily_stats : List Daily
deriving DecidableEq, Repr

/-- Source: `analyze_games` (lines 122-265): `None` on empty input
(`if not games: return None`), otherwise the snapshot. -/
def analyze_games (games : List Game) : Option Stats :=
  if games = [] then none
  else some
    { total_games := games.length
      unique_players := (uniquePlayerList games).length
      high_score_games := games.countP (fun g => g.is_high_score)
      avg_score := avg_score games
      median_score := median_score games
      max_score := pyMax (scores games)
      min_score := pyMin (scores games)
      one_time_players := one_time_players games
      returning_players := returning_players games
      super_engaged := super_engaged games
      top_players_by_games := top_players_by_games games
      top_players_by_score := top_players_by_score games
      score_distribution := score_ranges games
      daily_stats := daily_data games }

/-- The last-30-days window of `create_charts` (lines 445-465): for the
30 days ending at the last date of `daily_stats`, take the day's entry if
present, else a zero-filled entry. -/
def chart_daily_window (daily : List Daily) : List Daily :=
  match daily.getLast? with
  | none => []
  | some last =>
    (List.range 30).map (fun i : ℕ =>
      let d : ℤ := last.day - (29 - (i : ℤ))
      match daily.find? (fun e => decide (e.day = d)) with
      | some e => e
      | none => { day := d, games := 0, unique_players := 0 })

end MobeeStats

namespace MobeeStats

/-! ### The free-text parser `parse_game_notification` (lines 76-120)

Each Python regex is embedded as an explicit leftmost-search matcher over
`List Char`.  Greedy repetition with backtracking is modelled by
enumerating the candidate splits longest-first and taking the first
overall success, which is exactly the priority order of the backtracking
regex engine.  `\s` and `\d` are modelled at their ASCII meaning (the
notification format is ASCII). -/

/-- ASCII whitespace, the `\s` class. -/
def isSpaceChar (c : Char) : Bool :=
  c = ' ' || c = '\t' || c = '\n' || c = '\r' || c = '\x0b' || c = '\x0c'

/-- The `[a-zA-Z0-9]` class. -/
def isAlnumChar (c : Char) : Bool := c.isAlpha || c.isDigit

/-- The `[0-9A-Z-]` class of the game-code pattern. -/
def isCodeChar (c : Char) : Bool := c.isDigit || c.isUpper || c = '-'

/-- Numeric value of a matched `\d+` group, as `int(...)` reads it. -/
def natFromDigits (ds : List Char) : ℕ :=
  ds.foldl (fun n c => n * 10 + (c.toNat - '0'.toNat)) 0

/-- Python's substring test `needle in hay`. -/
def containsSeq (needle : List Char) : List Char → Bool
  | [] => needle.isEmpty
  | c :: rest => needle.isPrefixOf (c :: rest) || containsSeq needle rest

/-- All ways a greedy `cls*` can split `cs` into matched prefix and rest,
longest match first (backtracking priority order). -/
def starSplits (cls : Char → Bool) (cs : List Char) : List (List Char × List Char) :=
  let g := (cs.takeWhile cls).length
  (List.range (g + 1)).map (fun k => (cs.take (g - k), cs.drop (g - k)))

/-- All ways a greedy `cls+` can split `cs`, longest match first. -/
def plusSplits (cls : Char → Bool) (cs : List Char) : List (List Char × List Char) :=
  (starSplits cls cs).filter (fun p => !p.1.isEmpty)

/-- Tail of `(?:HIGH SCORE|Score):\s*(\d+)` after the label: `:` then
`\s*` then a digit group.  Backtracking `\s*` cannot create a match the
maximal whitespace run misses, because a surrendered whitespace char is
never a digit. -/
def matchColonWsDigits (cs : List Char) : Option ℕ :=
  match cs with
  | ':' :: rest =>
    let r := rest.dropWhile isSpaceChar
    let ds := r.takeWhile Char.isDigit
    if ds.isEmpty then none else some (natFromDigits ds)
  | _ => none

/-- Source: `(?:HIGH SCORE|Score):\s*(\d+)` anchored at the current position:
alternation tries `HIGH SCORE` first, then `Score` (line 83). -/
def matchScoreAt (cs : List Char) : Option ℕ :=
  match (if ("HIGH SCORE".data).isPrefixOf cs then matchColonWsDigits (cs.drop 10) else none) with
  | some n => some n
  | none => if ("Score".data).isPrefixOf cs then matchColonWsDigits (cs.drop 5) else none

/-- Source: `re.search` of the score pattern: leftmost position wins. -/
def searchScore : List Char → Option ℕ
  | [] => none
  | c :: rest =>
    match matchScoreAt (c :: rest) with
    | some n => some n
    | none => searchScore rest

/-- Source: `\|\s*([^|]+),\s*([^|]+)\s*\|` anchored at the current position
(line 90), with full backtracking priority over the greedy groups. -/
def matchLocAt (cs : List Char) : Option (List Char × List Char) :=
  match cs with
  | '|' :: r0 =>
    (starSplits isSpaceChar r0).findSome? (fun s1 =>
      (plusSplits (fun c => c ≠ '|') s1.2).findSome? (fun g1 =>
        match g1.2 with
        | ',' :: r2 =>
          (starSplits isSpaceChar r2).findSome? (fun s2 =>
            (plusSplits (fun c => c ≠ '|') s2.2).findSome? (fun g2 =>
              (starSplits isSpaceChar g2.2).findSome? (fun s3 =>
                match s3.2 with
                | '|' :: _ => some (g1.1, g2.1)
                | _ => none)))
        | _ => none))
  | _ => none

/-- Leftmost search for the location pattern. -/
def searchLoc : List Char → Option (List Char × List Char)
  | [] => none
  | c :: rest =>
    match matchLocAt (c :: rest) with
    | some g => some g
    | none => searchLoc rest

/-- Source: `\|\s*([^|]+)\s*\|\s*[a-zA-Z0-9]+\s*#` anchored at the current
position (line 95). -/
def matchPlatformAt (cs : List Char) : Option (List Char) :=
  match cs with
  | '|' :: r0 =>
    (starSplits isSpaceChar r0).findSome? (fun s1 =>
      (plusSplits (fun c => c ≠ '|') s1.2).findSome? (fun g1 =>
        (starSplits isSpaceChar g1.2).findSome? (fun s2 =>
          match s2.2 with
          | '|' :: r1 =>
            (starSplits isSpaceChar r1).findSome? (fun s3 =>
              (plusSplits isAlnumChar s3.2).findSome? (fun g2 =>
                (starSplits isSpaceChar g2.2).findSome? (fun s4 =>
                  match s4.2 with
                  | '#' :: _ => some g1.1
                  | _ => none)))
          | _ => none)))
  | _ => none

/-- Leftmost search for the platform pattern. -/
def searchPlatform : List Char → Option (List Char)
  | [] => none
  | c :: rest =>
    match matchPlatformAt (c :: rest) with
    | some g => some g
    | none => searchPlatform rest

/-- Source: `\|\s*([a-zA-Z0-9]+)\s*#\d+` anchored at the current position
(line 99). -/
def matchUserAt (cs : List Char) : Option (List Char) :=
  match cs with
  | '|' :: r0 =>
    (starSplits isSpaceChar r0).findSome? (fun s1 =>
      (plusSplits isAlnumChar s1.2).findSome? (fun g1 =>
        (starSplits isSpaceChar g1.2).findSome? (fun s2 =>
          match s2.2 with
          | '#' :: r1 => if (r1.takeWhile Char.isDigit).isEmpty then none else some g1.1
          | _ => none)))
  | _ => none

/-- Leftmost search for the user-code pattern. -/
def searchUser : List Char → Option (List Char)
  | [] => none
  | c :: rest =>
    match matchUserAt (c :: rest) with
    | some g => some g
    | none => searchUser rest

/-- Source: `#(\d+)` anchored at the current position (line 103): the group is
the maximal digit run after `#` (greedy, nothing follows). -/
def matchGameNumAt (cs : List Char) : Option ℕ :=
  match cs with
  | '#' :: r0 =>
    let ds := r0.takeWhile Char.isDigit
    if ds.isEmpty then none else some (natFromDigits ds)
  | _ => none

/-- Leftmost search for the game-number pattern. -/
def searchGameNum : List Char → Option ℕ
  | [] => none
  | c :: rest =>
    match matchGameNumAt (c :: rest) with
    | some n => some n
    | none => searchGameNum rest

/-- Source: `Code:\s*(MOBEE-[0-9A-Z-]+)` anchored at the current position
(line 107): after `Code:` the maximal whitespace run (`\s` and `M` are
disjoint), the literal `MOBEE-`, then a maximal nonempty `[0-9A-Z-]` run;
the group includes the literal prefix. -/
def matchGameCodeAt (cs : List Char) : Option (List Char) :=
  if ("Code:".data).isPrefixOf cs then
    let r := (cs.drop 5).dropWhile isSpaceChar
    if ("MOBEE-".data).isPrefixOf r then
      let body := (r.drop 6).takeWhile isCodeChar
      if body.isEmpty then none else some ("MOBEE-".data ++ body)
    else none
  else none

/-- Leftmost search for the game-code pattern. -/
def searchGameCode : List Char → Option (List Char)
  | [] => none
  | c :: rest =>
    match matchGameCodeAt (c :: rest) with
    | some g => some g
    | none => searchGameCode rest

/-- Python `str.strip()` (ASCII whitespace). -/
def pyStrip (cs : List Char) : String :=
  String.mk (((cs.dropWhile isSpaceChar).reverse.dropWhile isSpaceChar).reverse)

/-- The trophy-emoji marker of line 80 (`"🏆 HIGH SCORE:"`). -/
def trophyMarker : List Char := Char.ofNat 0x1F3C6 :: ' ' :: "HIGH SCORE:".data

/-- Source: `parse_game_notification` (lines 76-120): `None` exactly when the
score pattern is absent; every other field falls back to its default
independently when its own pattern fails. -/
def parse_game_notification (text : String) (timestamp : Option ℕ) : Option Game :=
  let cs := text.data
  let ihs := containsSeq trophyMarker cs || containsSeq ("HIGH SCORE:".data) cs ||
    containsSeq (":trophy: HIGH SCORE:".data) cs
  match searchScore cs with
  | none => none
  | some score => some
    { is_high_score := ihs
      score := score
      city := ((searchLoc cs).map (fun g => pyStrip g.1)).getD "Unknown"
      country := ((searchLoc cs).map (fun g => pyStrip g.2)).getD "Unknown"
      platform := ((searchPlatform cs).map pyStrip).getD "Unknown"
      user_code := ((searchUser cs).map pyStrip).getD "Unknown"
      game_number := (searchGameNum cs).getD 0
      game_code := ((searchGameCode cs).map String.mk).getD "Unknown"
      timestamp := timestamp }

/-- A fetched Slack message as consumed by `main` (lines 869-875): its
text and its `ts` value, `float(msg.get("ts", 0))` collapsing a missing
`ts` to `0`. -/
structure SlackMsg where
  text : String
  ts : ℕ
deriving DecidableEq, Repr

/-- One iteration of the `main` parsing loop (lines 869-875): only lines
containing a score marker are parsed; parse failures and scores above 30
are dropped. -/
def main_step (acc : List Game) (msg : SlackMsg) : List Game :=
  if containsSeq ("Score:".data) msg.text.data ||
      containsSeq ("HIGH SCORE:".data) msg.text.data then
    match parse_game_notification msg.text (some msg.ts) with
    | some p => if p.score ≤ 30 then acc ++ [p] else acc
    | none => acc
  else acc

/-- The event set `main` feeds to `analyze_games`. -/
def main_games (msgs : List SlackMsg) : List Game :=
  msgs.foldl main_step []

end MobeeStats

namespace Mobee8

open MobeeStats (insertUniq DailyAcc Daily)

/-- One raw structured record from the key-value store, as consumed by
`fetch_variant_data` in `mobee8_report_generator.py`: per-player score,
avatar and location maps (JSON objects have unique keys and preserve
order) plus the optional start/end timestamps in epoch milliseconds.
`startedAt` is read with `event.get('startedAt', 0)`, so a missing value
is already collapsed to `0`. -/
structure M8Event where
  startedAt : ℕ
  endedAt : Option ℕ
  scores : List (String × ℕ)
  avatars : List (String × String)
  locations : List (String × String × String)
deriving DecidableEq, Repr

/-- Source: `event.get('endedAt') or event.get('startedAt', 0)` (lines 177, 185):
Python `or` falls through on falsy values, so both a missing and a zero
`endedAt` select `startedAt`. -/
def effTs (ev : M8Event) : ℕ :=
  match ev.endedAt with
  | some t => if t = 0 then ev.startedAt else t
  | none => ev.startedAt

/-- Source: `avatars.get(player_id)` (line 215). -/
def m8Avatar (ev : M8Event) (pid : String) : Option String :=
  (ev.avatars.find? (fun q => decide (q.1 = pid))).map (fun q => q.2)

/-- Source: `get_score_bucket_7` (lines 102-112). -/
def get_score_bucket_7 (score : ℕ) : String :=
  if score ≤ 5 then "0-5"
  else if score ≤ 10 then "6-10"
  else if score ≤ 15 then "11-15"
  else if score ≤ 20 then "16-20"
  else "20+"

/-- Source: `get_score_bucket_12` (lines 114-124). -/
def get_score_bucket_12 (score : ℕ) : String :=
  if score ≤ 2 then "0-2"
  else if score ≤ 5 then "3-5"
  else if score ≤ 8 then "6-8"
  else if score ≤ 11 then "9-11"
  else "12+"

/-- Source: `SCORE_BUCKETS_7` (line 126). -/
def SCORE_BUCKETS_7 : List String := ["0-5", "6-10", "11-15", "16-20", "20+"]

/-- Source: `SCORE_BUCKETS_12` (line 127). -/
def SCORE_BUCKETS_12 : List String := ["0-2", "3-5", "6-8", "9-11", "12+"]

/-- The UTC calendar-day ordinal of `format_date` (lines 129-131) applied
to a millisecond timestamp: `fromtimestamp(ts / 1000, tz=utc)` rendered
as `YYYY-MM-DD`, modelled as the day ordinal. -/
def m8DayOf (ts : ℕ) : ℤ := (ts / 86400000 : ℕ)

/-- The per-player accumulator of `player_stats` (lines 200-219). -/
structure PlayerStat where
  games : ℕ
  totalScore : ℕ
  scores : List ℕ
  lastAvatar : Option String
  lastSeen : ℕ
  highScore : ℕ
deriving DecidableEq, Repr

/-- The zero record inserted on first sight of a player (lines 200-208). -/
def PlayerStat.init : PlayerStat :=
  { games := 0, totalScore := 0, scores := [], lastAvatar := none, lastSeen := 0, highScore := 0 }

/-- Lines 210-219 applied to one player's stat for one scored event:
increment the counters, then record the avatar only when this event's
end-timestamp strictly exceeds `lastSeen` and the avatar string is truthy
(`if avatar:`). -/
def m8ApplyGame (av : Option String) (ended : ℕ) (score : ℕ) (st : PlayerStat) : PlayerStat :=
  let st1 : PlayerStat :=
    { st with
      games := st.games + 1
      totalScore := st.totalScore + score
      scores := st.scores ++ [score]
      highScore := max st.highScore score }
  if ended > st1.lastSeen then
    { st1 with
      lastSeen := ended
      lastAvatar := (match av with
        | some a => if a = "" then st1.lastAvatar else some a
        | none => st1.lastAvatar) }
  else st1

/-- One `(player_id, score)` iteration of the `player_stats` updates
(lines 200-219): create the key at the end if absent, then apply the
updates to it. -/
def m8ScoreStep (av : Option String) (ended : ℕ) (acc : List (String × PlayerStat))
    (pid : String) (score : ℕ) : List (String × PlayerStat) :=
  let acc1 := if acc.any (fun p => p.1 = pid) then acc else acc ++ [(pid, PlayerStat.init)]
  acc1.map (fun p => if p.1 = pid then (p.1, m8ApplyGame av ended score p.2) else p)

/-- The `player_stats` dict after the event loop, keys in first-sight
order. -/
def m8_player_stats (events : List M8Event) : List (String × PlayerStat) :=
  events.foldl (fun acc ev =>
    ev.scores.foldl (fun a q => m8ScoreStep (m8Avatar ev q.1) (effTs ev) a q.1 q.2) acc) []

/-- The `unique_players` set (lines 158, 194) as a first-occurrence
list. -/
def m8_unique_players (events : List M8Event) : List String :=
  events.foldl (fun acc ev => ev.scores.foldl (fun a q => insertUniq a q.1) acc) []

/-- One event's contribution to `daily_map` (lines 177-198): the day key
is created for every event — before and regardless of the scores loop —
then each scored player increments the day's game count and joins its
player set. -/
def m8DailyStep (acc : List DailyAcc) (ev : M8Event) : List DailyAcc :=
  let d := m8DayOf (effTs ev)
  let acc1 := if acc.any (fun e => e.day = d) then acc
              else acc ++ [{ day := d, games := 0, players := [] }]
  ev.scores.foldl (fun a q =>
    a.map (fun e =>
      if e.day = d then
        { e with
          games := e.games + 1
          players := insertUniq e.players q.1 }
      else e)) acc1

/-- The `daily_map` dict (lines 166, 177-198). -/
def m8_daily_map (events : List M8Event) : List DailyAcc :=
  events.foldl m8DailyStep []

/-- Python `l[-30:]`: the last 30 elements, all of them when shorter. -/
def pyLast30 (l : List Daily) : List Daily := l.drop (l.length - 30)

/-- Source: `daily_stats` (lines 230-238): sort the day keys ascending, project
out the counts, keep the last 30 entries. -/
def m8_daily_stats (events : List M8Event) : List Daily :=
  pyLast30 (((m8_daily_map events).insertionSort (fun a b => a.day ≤ b.day)).map
    (fun e => { day := e.day, games := e.games, unique_players := e.players.length }))

/-- Source: `total_games`: one per `(player_id, score)` pair (line 188). -/
def m8_total_games (events : List M8Event) : ℕ :=
  events.foldl (fun n ev => ev.scores.foldl (fun m _ => m + 1) n) 0

/-- Source: `total_score` (line 189). -/
def m8_total_score (events : List M8Event) : ℕ :=
  events.foldl (fun n ev => ev.scores.foldl (fun m q => m + q.2) n) 0

/-- Source: `max_score` starting from `0` (lines 173, 190). -/
def m8_max_score (events : List M8Event) : ℕ :=
  events.foldl (fun n ev => ev.scores.foldl (fun m q => max m q.2) n) 0

/-- Source: `all_scores` (lines 174, 191). -/
def m8_all_scores (events : List M8Event) : List ℕ :=
  events.foldl (fun l ev => ev.scores.foldl (fun l2 q => l2 ++ [q.2]) l) []

/-- Source: `score_distribution` (lines 160-165, 195): the bucket table and
bucket function are selected by the caller-supplied variant key. -/
def m8_score_distribution (variant7 : Bool) (events : List M8Event) : List (String × ℕ) :=
  let init := (if variant7 then SCORE_BUCKETS_7 else SCORE_BUCKETS_12).map (fun b => (b, 0))
  let bucket := if variant7 then get_score_bucket_7 else get_score_bucket_12
  events.foldl (fun acc ev =>
    ev.scores.foldl (fun a q => MobeeStats.bumpRange a (bucket q.2)) acc) init

/-- Source: `one_time_players` (line 288). -/
def m8_one_time (events : List M8Event) : ℕ :=
  (m8_player_stats events).countP (fun p => decide (p.2.games = 1))

/-- Source: `returning_players` (line 289). -/
def m8_returning (events : List M8Event) : ℕ :=
  (m8_player_stats events).countP (fun p => decide (p.2.games > 1))

/-- Source: `super_engaged` (line 290). -/
def m8_super_engaged (events : List M8Event) : ℕ :=
  (m8_player_stats events).countP (fun p => decide (p.2.games ≥ 10))

/-- Python `round(x, 2)` as used on the average and the median.  Python
rounds half to even; on every value this report produces under the
integer-score data model the scaled value `x * 100` is an exact integer
(medians are halves of integers), where every rounding rule is the
identity, so the model uses the unique integer value. -/
def round2 (q : ℚ) : ℚ := ((round (q * 100) : ℤ) : ℚ) / 100

/-- Source: `median_score` (lines 292-297): `0` for no scores, else the sorted
middle rule; the returned field is `round(median_score, 2)` (line 308). -/
def m8_median_raw (all_scores : List ℕ) : ℚ :=
  if all_scores = [] then 0
  else
    let ss := all_scores.insertionSort (fun a b => a ≤ b)
    if ss.length % 2 = 1 then (ss.getD (ss.length / 2) 0 : ℚ)
    else ((ss.getD (ss.length / 2 - 1) 0 : ℚ) + (ss.getD (ss.length / 2) 0 : ℚ)) / 2

/-- Source: `round(median_score, 2)` (line 308). -/
def m8_median (all_scores : List ℕ) : ℚ := round2 (m8_median_raw all_scores)

/-- Source: `sorted_by_games` and `top_by_games` (lines 276-285): players sorted
descending by game count (stable), truncated to 15, with their rounded
average scores.  `round(-, 1)` is modelled exactly like `round2`. -/
def round1 (q : ℚ) : ℚ := ((round (q * 10) : ℤ) : ℚ) / 10

/-- One row of `top_by_games`. -/
structure TopByGames where
  playerId : String
  games : ℕ
  avgScore : ℚ
deriving DecidableEq, Repr

/-- Source: `top_by_games` (lines 276-285). -/
def m8_top_by_games (events : List M8Event) : List TopByGames :=
  (((m8_player_stats events).insertionSort (fun a b => b.2.games ≤ a.2.games)).take 15).map
    (fun p =>
      { playerId := p.1, games := p.2.games,
        avgScore := if p.2.games > 0 then round1 ((p.2.totalScore : ℚ) / (p.2.games : ℚ)) else 0 })

/-- The aggregation result of `fetch_variant_data` (lines 303-323)
restricted to its pure, event-derived fields.  `top_players_by_score`
(lines 241-273) is read from a separate key-value-store sorted set plus
per-player metadata fetches — adapter I/O outside the event aggregation —
and is therefore not part of the pure model. -/
structure M8Stats where
  total_games : ℕ
  unique_players : ℕ
  avg_score : ℚ
  median_score : ℚ
  max_score : ℕ
  min_score : ℕ
  score_distribution : List (String × ℕ)
  daily_stats : List Daily
  top_players_by_games : List TopByGames
  one_time : ℕ
  returning : ℕ
  super_engaged : ℕ
deriving DecidableEq, Repr

/-- The pure aggregation of `fetch_variant_data` (lines 138-323): note
that, unlike `analyze_games`, an empty event list is not short-circuited;
every division is individually guarded and the result is a zero-filled
snapshot. -/
def fetch_variant_data (variant7 : Bool) (events : List M8Event) : M8Stats :=
  { total_games := m8_total_games events
    unique_players := (m8_unique_players events).length
    avg_score :=
      if m8_total_games events > 0 then
        round2 ((m8_total_score events : ℚ) / (m8_total_games events : ℚ))
      else 0
    median_score := m8_median (m8_all_scores events)
    max_score := m8_max_score events
    min_score := if m8_all_scores events ≠ [] then MobeeStats.pyMin (m8_all_scores events) else 0
    score_distribution := m8_score_distribution variant7 events
    daily_stats := m8_daily_stats events
    top_players_by_games := m8_top_by_games events
    one_time := m8_one_time events
    returning := m8_returning events
    super_engaged := m8_super_engaged events }

end Mobee8

namespace Mobee8

open MobeeStats (Game)

/-- First matching value of an association list — Python dict read; the
construction keeps keys unique, so first-match equals the dict entry. -/
def findStat (acc : List (String × PlayerStat)) (pid : String) : Option PlayerStat :=
  (acc.find? (fun p => decide (p.1 = pid))).map (fun p => p.2)

/-- The `(lastSeen, lastAvatar)` view of an optional player record;
`(0, none)` for an absent player, matching `PlayerStat.init`'s values. -/
def seenPair : Option PlayerStat → ℕ × Option String
  | some st => (st.lastSeen, st.lastAvatar)
  | none => (0, none)

/-- The avatar-tracking step of lines 215-219 abstracted to the
`(lastSeen, lastAvatar)` pair: a scored occurrence with effective
end-timestamp `q.1` and avatar-map entry `q.2` updates the pair exactly
when its timestamp strictly exceeds `lastSeen`. -/
def avatarStep (st : ℕ × Option String) (q : ℕ × Option String) : ℕ × Option String :=
  if q.1 > st.1 then
    (q.1, match q.2 with
      | some a => if a = "" then st.2 else some a
      | none => st.2)
  else st

/-- For a fixed player: the `(effTs, avatar)` observations of the
player's scored occurrences, in processing order. -/
def avatar_trace (events : List M8Event) (pid : String) : List (ℕ × Option String) :=
  match events with
  | [] => []
  | ev :: evs =>
    (ev.scores.filter (fun q => decide (q.1 = pid))).map (fun _ => (effTs ev, m8Avatar ev pid))
      ++ avatar_trace evs pid

/-- The avatar an observation actually carries: present and truthy
(nonempty), per `if avatar:`. -/
def carriedAvatar (q : ℕ × Option String) : Option String :=
  match q.2 with
  | some a => if a = "" then none else some a
  | none => none

/-- Written from the claim's words, for comparison with the code
(claim C9): the avatar carried by the player's event with the latest
end-timestamp among events carrying an avatar for the player; on an
exact timestamp tie the last-processed record wins. -/
def claim_latest_avatar (events : List M8Event) (pid : String) : Option String :=
  ((events.filter (fun ev => (m8Avatar ev pid).isSome)).foldl
    (fun best ev =>
      match best with
      | none => some ev
      | some b => if effTs ev ≥ effTs b then some ev else some b) none).bind
    (fun ev => m8Avatar ev pid)

end Mobee8

namespace MobeeStats

/-- Dropping the timestamp of an event (used to state that every scalar
rollup of `analyze_games` is insensitive to timestamps). -/
def clearTs (g : Game) : Game :=
  { g with timestamp := none }

/-- A concrete two-player input used by the witnesses. -/
def demoGames : List Game :=
  [{ is_high_score := false, score := 10, city := "C", country := "X", platform := "P",
     user_code := "A", game_number := 1, game_code := "G", timestamp := some 86400 },
   { is_high_score := true, score := 20, city := "C", country := "X", platform := "P",
     user_code := "B", game_number := 1, game_code := "G", timestamp := some 172800 }]

/-- A concrete event whose timestamp is present but zero (exactly what
`main` produces for a message without a `ts` field). -/
def demoTs0 : Game :=
  { is_high_score := false, score := 3, city := "Unknown", country := "Unknown",
    platform := "Unknown", user_code := "A", game_number := 0, game_code := "Unknown",
    timestamp := some 0 }

end MobeeStats

namespace Mobee8

/-- Two structured records in increasing end-timestamp order, the second
carrying an avatar. -/
def demoM8 : List M8Event :=
  [{ startedAt := 0, endedAt := some 5, scores := [("p", 3)], avatars := [("p", "A")],
     locations := [] },
   { startedAt := 0, endedAt := some 10, scores := [("p", 4)], avatars := [],
     locations := [] }]

/-- Two structured records processed out of timestamp order: the older
one (processed second) is the only one carrying an avatar. -/
def demoShadow : List M8Event :=
  [{ startedAt := 0, endedAt := some 10, scores := [("p", 3)], avatars := [], locations := [] },
   { startedAt := 0, endedAt := some 5, scores := [("p", 4)], avatars := [("p", "A")],
     locations := [] }]

/-- A structured record with an empty scores map: it expands to zero game
events but still creates a daily entry. -/
def demoEmptyScores : M8Event :=
  { startedAt := 0, endedAt := some 86400000, scores := [], avatars := [], locations := [] }

end Mobee8

/-! ## Helper lemmas -/

namespace MobeeStats

theorem le_foldl_max (xs : List ℕ) (a : ℕ) : a ≤ xs.foldl Nat.max a := by
  induction xs generalizing a with
  | nil => exact le_refl a
  | cons x xs ih => exact le_trans (Nat.le_max_left a x) (ih (Nat.max a x))

theorem mem_le_foldl_max (xs : List ℕ) (a x : ℕ) (hx : x ∈ xs) : x ≤ xs.foldl Nat.max a := by
  induction xs generalizing a with
  | nil => cases hx
  | cons y ys ih =>
    rcases List.mem_cons.mp hx with h | h
    · subst h
      exact le_trans (Nat.le_max_right a x) (le_foldl_max ys _)
    · exact ih _ h

theorem le_pyMax (l : List ℕ) (x : ℕ) (hx : x ∈ l) : x ≤ pyMax l := by
  cases l with
  | nil => cases hx
  | cons y ys =>
    rcases List.mem_cons.mp hx with h | h
    · subst h; exact le_foldl_max ys x
    · exact mem_le_foldl_max ys y x h

theorem foldl_min_le (xs : List ℕ) (a : ℕ) : xs.foldl Nat.min a ≤ a := by
  induction xs generalizing a with
  | nil => exact le_refl a
  | cons x xs ih => exact le_trans (ih (Nat.min a x)) (Nat.min_le_left a x)

theorem foldl_min_le_mem (xs : List ℕ) (a x : ℕ) (hx : x ∈ xs) : xs.foldl Nat.min a ≤ x := by
  induction xs generalizing a with
  | nil => cases hx
  | cons y ys ih =>
    rcases List.mem_cons.mp hx with h | h
    · subst h
      exact le_trans (foldl_min_le ys _) (Nat.min_le_right a x)
    · exact ih _ h

theorem pyMin_le (l : List ℕ) (x : ℕ) (hx : x ∈ l) : pyMin l ≤ x := by
  cases l with
  | nil => cases hx
  | cons y ys =>
    rcases List.mem_cons.mp hx with h | h
    · subst h; exact foldl_min_le ys x
    · exact foldl_min_le_mem ys y x h

theorem getD_mem_of_lt (l : List ℕ) (i : ℕ) (h : i < l.length) : l.getD i 0 ∈ l := by
  rw [List.getD_eq_getElem?_getD, List.getElem?_eq_getElem h]
  exact List.get_mem l i h

/-- Descending stable sort by a `ℕ` key is sorted descending. -/
theorem sorted_desc_insertionSort {α : Type} (k : α → ℕ) (l : List α) :
    (l.insertionSort (fun a b => k b ≤ k a)).Pairwise (fun a b => k b ≤ k a) := by
  haveI : IsTotal α (fun a b => k b ≤ k a) := ⟨fun a b => le_total (k b) (k a)⟩
  haveI : IsTrans α (fun a b => k b ≤ k a) := ⟨fun a b c hab hbc => le_trans hbc hab⟩
  exact List.sorted_insertionSort _ l

/-- Descending stable sort by a `ℕ` key keeps key-tied elements in their
original relative order. -/
theorem stable_pair_insertionSort {α : Type} (k : α → ℕ) (l : List α) (a b : α)
    (hsub : List.Sublist [a, b] l) (heq : k a = k b) :
    List.Sublist [a, b] (l.insertionSort (fun a b => k b ≤ k a)) :=
  List.pair_sublist_insertionSort (le_of_eq heq.symm) hsub

/-- Ascending stable sort by a `ℤ` key is sorted ascending. -/
theorem sorted_asc_insertionSort_int {α : Type} (k : α → ℤ) (l : List α) :
    (l.insertionSort (fun a b => k a ≤ k b)).Pairwise (fun a b => k a ≤ k b) := by
  haveI : IsTotal α (fun a b => k a ≤ k b) := ⟨fun a b => le_total (k a) (k b)⟩
  haveI : IsTrans α (fun a b => k a ≤ k b) := ⟨fun a b c hab hbc => le_trans hab hbc⟩
  exact List.sorted_insertionSort _ l

theorem sorted_scores_perm (games : List Game) : (sorted_scores games).Perm (scores games) :=
  List.perm_insertionSort _ _

theorem sorted_scores_sorted (games : List Game) :
    (sorted_scores games).Pairwise (fun a b => a ≤ b) :=
  List.sorted_insertionSort _ (scores games)

theorem scores_ne_nil (games : List Game) (h : games ≠ []) : scores games ≠ [] := by
  simpa [scores] using h

end MobeeStats

namespace MobeeStats

theorem median_score_eq (games : List Game) :
    median_score games =
      (if (sorted_scores games).length % 2 = 1 then
        ((sorted_scores games).getD ((sorted_scores games).length / 2) 0 : ℚ)
      else
        (((sorted_scores games).getD ((sorted_scores games).length / 2 - 1) 0 : ℚ) +
          ((sorted_scores games).getD ((sorted_scores games).length / 2) 0 : ℚ)) / 2) := rfl

theorem mem_scores_bounds (games : List Game) (x : ℕ) (hx : x ∈ sorted_scores games) :
    pyMin (scores games) ≤ x ∧ x ≤ pyMax (scores games) := by
  have hmem : x ∈ scores games := (sorted_scores_perm games).mem_iff.mp hx
  exact ⟨pyMin_le _ x hmem, le_pyMax _ x hmem⟩

theorem median_between (games : List Game) (h : games ≠ []) :
    (pyMin (scores games) : ℚ) ≤ median_score games ∧
    median_score games ≤ (pyMax (scores games) : ℚ) := by
  have hlen : (sorted_scores games).length = (scores games).length :=
    (sorted_scores_perm games).length_eq
  have hpos : 0 < (sorted_scores games).length := by
    rw [hlen]
    exact List.length_pos.mpr (scores_ne_nil games h)
  rw [median_score_eq]
  split
  · have hi : (sorted_scores games).length / 2 < (sorted_scores games).length :=
      Nat.div_lt_self hpos (by norm_num)
    have hb := mem_scores_bounds games _ (getD_mem_of_lt _ _ hi)
    exact ⟨by exact_mod_cast hb.1, by exact_mod_cast hb.2⟩
  · next heven =>
    have h2 : 2 ≤ (sorted_scores games).length := by omega
    have hi1 : (sorted_scores games).length / 2 - 1 < (sorted_scores games).length := by omega
    have hi2 : (sorted_scores games).length / 2 < (sorted_scores games).length := by omega
    have hb1 := mem_scores_bounds games _ (getD_mem_of_lt _ _ hi1)
    have hb2 := mem_scores_bounds games _ (getD_mem_of_lt _ _ hi2)
    have c1 : (pyMin (scores games) : ℚ) ≤ ((sorted_scores games).getD ((sorted_scores games).length / 2 - 1) 0 : ℕ) := by
      exact_mod_cast hb1.1
    have c2 : (pyMin (scores games) : ℚ) ≤ ((sorted_scores games).getD ((sorted_scores games).length / 2) 0 : ℕ) := by
      exact_mod_cast hb2.1
    have c3 : (((sorted_scores games).getD ((sorted_scores games).length / 2 - 1) 0 : ℕ) : ℚ) ≤ pyMax (scores games) := by
      exact_mod_cast hb1.2
    have c4 : (((sorted_scores games).getD ((sorted_scores games).length / 2) 0 : ℕ) : ℚ) ≤ pyMax (scores games) := by
      exact_mod_cast hb2.2
    constructor
    · linarith
    · linarith

theorem round2_natCast (a : ℕ) : Mobee8.round2 (a : ℚ) = a := by
  unfold Mobee8.round2
  have h : ((a : ℚ)) * 100 = ((100 * a : ℤ) : ℚ) := by push_cast; ring
  rw [h, round_intCast]
  push_cast; ring

theorem round2_half (a b : ℕ) : Mobee8.round2 (((a : ℚ) + b) / 2) = ((a : ℚ) + b) / 2 := by
  unfold Mobee8.round2
  have h : (((a : ℚ) + b) / 2) * 100 = ((50 * a + 50 * b : ℤ) : ℚ) := by push_cast; ring
  rw [h, round_intCast]
  push_cast; ring

theorem m8_median_exact (gs : List Game) (hgs : gs ≠ []) :
    Mobee8.m8_median (scores gs) = median_score gs := by
  have hraw : Mobee8.m8_median_raw (scores gs) = median_score gs := by
    unfold Mobee8.m8_median_raw
    rw [if_neg (scores_ne_nil gs hgs)]
    rfl
  rw [Mobee8.m8_median, hraw, median_score_eq]
  split
  · exact round2_natCast _
  · exact round2_half _ _

end MobeeStats

namespace MobeeStats

/-- Claim **C2**: for every non-empty event sequence, the snapshot's median equals
the middle element of the ascending-sorted score list when the count is odd
and the exact (unrounded) arithmetic mean of the two middle elements when the
count is even, and it lies between the snapshot's min and max scores
inclusive.  The mobee8 variant computes the same formula and its
`round(-, 2)` is exact on these values. -/
theorem claim_c2_median (games : List Game) (h : games ≠ []) :
    (∃ s : Stats, analyze_games games = some s ∧
      s.median_score = median_score games ∧
      s.min_score = pyMin (scores games) ∧
      s.max_score = pyMax (scores games)) ∧
    (sorted_scores games).Pairwise (fun a b => a ≤ b) ∧
    (sorted_scores games).Perm (scores games) ∧
    median_score games =
      (if (sorted_scores games).length % 2 = 1 then
        ((sorted_scores games).getD ((sorted_scores games).length / 2) 0 : ℚ)
      else
        (((sorted_scores games).getD ((sorted_scores games).length / 2 - 1) 0 : ℚ) +
          ((sorted_scores games).getD ((sorted_scores games).length / 2) 0 : ℚ)) / 2) ∧
    (pyMin (scores games) : ℚ) ≤ median_score games ∧
    median_score games ≤ (pyMax (scores games) : ℚ) ∧
    Mobee8.m8_median (scores games) = median_score games := by
  constructor
  · rw [analyze_games, if_neg h]
    exact ⟨_, rfl, rfl, rfl, rfl⟩
  exact ⟨sorted_scores_sorted games, sorted_scores_perm games, median_score_eq games,
    (median_between games h).1, (median_between games h).2, m8_median_exact games h⟩

/-- Witness for C2 at a concrete even-count input: median `(10+20)/2 = 15`. -/
theorem claim_c2_median_witness :
    (pyMin (scores demoGames) : ℚ) ≤ median_score demoGames ∧
    median_score demoGames ≤ (pyMax (scores demoGames) : ℚ) ∧
    median_score demoGames = 15 := by
  have h := claim_c2_median demoGames (by decide)
  refine ⟨h.2.2.2.2.1, h.2.2.2.2.2.1, ?_⟩
  norm_num [median_score_eq, sorted_scores, scores, demoGames, List.insertionSort,
    List.orderedInsert]

end MobeeStats

namespace MobeeStats

theorem get_score_bucket_7_eq (s : ℕ) : Mobee8.get_score_bucket_7 s = bucket7 s := rfl

theorem bucket7_cases (s : ℕ) :
    bucket7 s = "0-5" ∨ bucket7 s = "6-10" ∨ bucket7 s = "11-15" ∨
    bucket7 s = "16-20" ∨ bucket7 s = "20+" := by
  unfold bucket7
  split_ifs <;> simp

theorem bucket7_spec (s : ℕ) :
    (bucket7 s = "0-5" ↔ s ≤ 5) ∧
    (bucket7 s = "6-10" ↔ 6 ≤ s ∧ s ≤ 10) ∧
    (bucket7 s = "11-15" ↔ 11 ≤ s ∧ s ≤ 15) ∧
    (bucket7 s = "16-20" ↔ 16 ≤ s ∧ s ≤ 20) ∧
    (bucket7 s = "20+" ↔ 21 ≤ s) := by
  unfold bucket7
  split_ifs with h1 h2 h3 h4 <;>
    refine ⟨?_, ?_, ?_, ?_, ?_⟩ <;> simp +decide <;> omega

theorem countKey_init (lbl : String)
    (h : lbl = "0-5" ∨ lbl = "6-10" ∨ lbl = "11-15" ∨ lbl = "16-20" ∨ lbl = "20+") :
    SCORE_RANGES_INIT.countP (fun p => decide (p.1 = lbl)) = 1 := by
  rcases h with h | h | h | h | h <;> subst h <;> decide

theorem bumpRange_fst (acc : List (String × ℕ)) (lbl : String) :
    (bumpRange acc lbl).map Prod.fst = acc.map Prod.fst := by
  unfold bumpRange
  rw [List.map_map]
  apply List.map_congr_left
  intro p _
  by_cases h : p.1 = lbl <;> simp [h]

theorem bumpRange_sum (acc : List (String × ℕ)) (lbl : String) :
    ((bumpRange acc lbl).map Prod.snd).sum
      = (acc.map Prod.snd).sum + acc.countP (fun p => decide (p.1 = lbl)) := by
  induction acc with
  | nil => simp [bumpRange]
  | cons p acc ih =>
    by_cases h : p.1 = lbl <;>
      simp [bumpRange, List.countP_cons, h] at ih ⊢ <;> omega

theorem countKey_fst (acc : List (String × ℕ)) (l2 : String) :
    acc.countP (fun p => decide (p.1 = l2))
      = (acc.map Prod.fst).countP (fun x => decide (x = l2)) := by
  rw [List.countP_map]
  rfl

theorem countKey_bumpRange (acc : List (String × ℕ)) (l1 l2 : String) :
    (bumpRange acc l1).countP (fun p => decide (p.1 = l2))
      = acc.countP (fun p => decide (p.1 = l2)) := by
  rw [countKey_fst, countKey_fst, bumpRange_fst]

theorem score_fold_sum (ss : List ℕ) (acc : List (String × ℕ))
    (hkeys : ∀ s : ℕ, acc.countP (fun p => decide (p.1 = bucket7 s)) = 1) :
    ((ss.foldl (fun a s => bumpRange a (bucket7 s)) acc).map Prod.snd).sum
      = (acc.map Prod.snd).sum + ss.length := by
  induction ss generalizing acc with
  | nil => simp
  | cons s ss ih =>
    rw [List.foldl_cons, ih]
    · rw [bumpRange_sum, hkeys s, List.length_cons]
      omega
    · intro t
      rw [countKey_bumpRange]
      exact hkeys t

theorem score_ranges_sum (games : List Game) :
    ((score_ranges games).map Prod.snd).sum = games.length := by
  unfold score_ranges
  rw [score_fold_sum]
  · simp [SCORE_RANGES_INIT, scores]
  · intro t
    exact countKey_init _ (bucket7_cases t)

/-- Claim **C3**: the bucket function (shared between `analyze_games` and
`get_score_bucket_7`) assigns every score to exactly one label of the
fixed table — the label ranges are contiguous, non-overlapping and end in
an open top bucket — and consequently the snapshot's distribution counts
sum to `total_games`. -/
theorem claim_c3_buckets :
    (∀ s : ℕ,
      Mobee8.get_score_bucket_7 s = bucket7 s ∧
      SCORE_RANGES_INIT.countP (fun p => decide (p.1 = bucket7 s)) = 1 ∧
      (bucket7 s = "0-5" ↔ s ≤ 5) ∧
      (bucket7 s = "6-10" ↔ 6 ≤ s ∧ s ≤ 10) ∧
      (bucket7 s = "11-15" ↔ 11 ≤ s ∧ s ≤ 15) ∧
      (bucket7 s = "16-20" ↔ 16 ≤ s ∧ s ≤ 20) ∧
      (bucket7 s = "20+" ↔ 21 ≤ s)) ∧
    (∀ games : List Game, ((score_ranges games).map Prod.snd).sum = games.length) ∧
    (∀ games : List Game, games ≠ [] → ∃ st : Stats, analyze_games games = some st ∧
      (st.score_distribution.map Prod.snd).sum = st.total_games) := by
  refine ⟨fun s => ?_, score_ranges_sum, fun games hne => ?_⟩
  · obtain ⟨a, b, c, d, e⟩ := bucket7_spec s
    exact ⟨rfl, countKey_init _ (bucket7_cases s), a, b, c, d, e⟩
  · rw [analyze_games, if_neg hne]
    exact ⟨_, rfl, score_ranges_sum games⟩

/-- Witness for C3 at a concrete input. -/
theorem claim_c3_buckets_witness :
    ∃ st : Stats, analyze_games demoGames = some st ∧
      (st.score_distribution.map Prod.snd).sum = st.total_games :=
  claim_c3_buckets.2.2 demoGames (by decide)

end MobeeStats

namespace MobeeStats

/-- Claim **C4**: both leaderboards are sorted descending by their ranking key;
elements with tied keys stay in the order of the underlying grouping
maps, whose key order is the first-occurrence order of the players in
the input; and aggregation is deterministic, so re-running on the same
input reproduces the ordering. -/
theorem claim_c4_leaderboards (games : List Game) :
    (top_players_by_games games).Pairwise (fun a b => b.2.length ≤ a.2.length) ∧
    (top_players_by_score games).Pairwise (fun a b => b.2 ≤ a.2) ∧
    (∀ a b, List.Sublist [a, b] (player_games games) → a.2.length = b.2.length →
      List.Sublist [a, b]
        ((player_games games).insertionSort (fun a b => b.2.length ≤ a.2.length))) ∧
    (∀ a b, List.Sublist [a, b] (player_high_scores games) → a.2 = b.2 →
      List.Sublist [a, b]
        ((player_high_scores games).insertionSort (fun a b => b.2 ≤ a.2))) ∧
    (∀ games2 : List Game, games2 = games → analyze_games games2 = analyze_games games) := by
  refine ⟨?_, ?_, ?_, ?_, ?_⟩
  · exact List.Pairwise.sublist (List.take_sublist _ _)
      (sorted_desc_insertionSort (fun p => p.2.length) (player_games games))
  · exact List.Pairwise.sublist (List.take_sublist _ _)
      (sorted_desc_insertionSort (fun p => p.2) (player_high_scores games))
  · exact fun a b hsub heq => stable_pair_insertionSort (fun p => p.2.length) _ a b hsub heq
  · exact fun a b hsub heq => stable_pair_insertionSort (fun p => p.2) _ a b hsub heq
  · intro games2 h
    rw [h]

/-- Witness for C4: at the concrete two-player input both players have
one game each (a tie), and they appear in the sorted list in
first-occurrence order. -/
theorem claim_c4_leaderboards_witness :
    List.Sublist [("A", [10]), ("B", [20])]
      ((player_games demoGames).insertionSort (fun a b => b.2.length ≤ a.2.length)) ∧
    (top_players_by_games demoGames).Pairwise (fun a b => b.2.length ≤ a.2.length) := by
  have h := claim_c4_leaderboards demoGames
  refine ⟨h.2.2.1 _ _ ?_ rfl, h.1⟩
  have hpg : player_games demoGames = [("A", [10]), ("B", [20])] := by decide
  rw [hpg]

end MobeeStats

namespace MobeeStats

/-- Generic partition count: when every measured value is nonzero, the
`= 1` and `> 1` counts partition the list. -/
theorem countP_partition {α : Type} (l : List α) (f : α → ℕ) (hpos : ∀ a ∈ l, f a ≠ 0) :
    l.countP (fun a => decide (f a = 1)) + l.countP (fun a => decide (f a > 1)) = l.length := by
  induction l with
  | nil => rfl
  | cons x l ih =>
    have hx := hpos x (by simp)
    have hl : ∀ a ∈ l, f a ≠ 0 := fun a ha => hpos a (by simp [ha])
    have hih := ih hl
    rw [List.countP_cons, List.countP_cons, List.length_cons]
    by_cases h : f x = 1
    · have h2 : ¬ (f x > 1) := by omega
      rw [if_pos (by simpa using h), if_neg (by simpa using h2)]
      omega
    · have h2 : f x > 1 := by omega
      rw [if_neg (by simpa using h), if_pos (by simpa using h2)]
      omega

theorem anyMap {α β : Type} (l : List α) (f : α → β) (p : β → Bool) :
    (l.map f).any p = l.any (fun a => p (f a)) := by
  induction l with
  | nil => rfl
  | cons x l ih => simp [ih]

theorem addGame_fst (acc : List (String × List ℕ)) (g : Game) :
    (addGame acc g).map Prod.fst = insertUniq (acc.map Prod.fst) g.user_code := by
  unfold addGame insertUniq
  by_cases h : acc.any (fun p => p.1 = g.user_code) = true
  · have h2 : (acc.map Prod.fst).any (fun y => y = g.user_code) = true := by
      rw [anyMap]
      exact h
    rw [if_pos h, if_pos h2, List.map_map]
    apply List.map_congr_left
    intro p _
    by_cases hh : p.1 = g.user_code <;> simp [hh]
  · have h2 : ¬ ((acc.map Prod.fst).any (fun y => y = g.user_code) = true) := by
      rw [anyMap]
      exact h
    rw [if_neg h, if_neg h2, List.map_append]
    rfl

theorem foldl_addGame_fst (games : List Game) (acc : List (String × List ℕ)) :
    (games.foldl addGame acc).map Prod.fst
      = (games.map (fun g => g.user_code)).foldl insertUniq (acc.map Prod.fst) := by
  induction games generalizing acc with
  | nil => rfl
  | cons g gs ih =>
    rw [List.foldl_cons, ih, addGame_fst, List.map_cons, List.foldl_cons]

theorem player_games_fst (games : List Game) :
    (player_games games).map Prod.fst = uniquePlayerList games := by
  unfold player_games uniquePlayerList
  exact foldl_addGame_fst games []

theorem addGame_vals_ne_nil (acc : List (String × List ℕ)) (g : Game)
    (hacc : ∀ p ∈ acc, p.2 ≠ []) : ∀ p ∈ addGame acc g, p.2 ≠ [] := by
  intro p hp
  unfold addGame at hp
  split at hp
  · rcases List.mem_map.mp hp with ⟨q, hq, rfl⟩
    by_cases h : q.1 = g.user_code
    · simp [h]
    · simpa [h] using hacc q hq
  · rcases List.mem_append.mp hp with h | h
    · exact hacc p h
    · rcases List.mem_singleton.mp h with rfl
      simp

theorem player_games_vals_ne_nil (games : List Game) :
    ∀ p ∈ player_games games, p.2 ≠ [] := by
  unfold player_games
  have h : ∀ (gs : List Game) (acc : List (String × List ℕ)),
      (∀ p ∈ acc, p.2 ≠ []) → ∀ p ∈ gs.foldl addGame acc, p.2 ≠ [] := by
    intro gs
    induction gs with
    | nil =>
      intro acc hacc
      simpa using hacc
    | cons g gs ih =>
      intro acc hacc
      rw [List.foldl_cons]
      exact ih _ (addGame_vals_ne_nil acc g hacc)
  exact h games [] (by simp)

theorem engagement_partition (games : List Game) :
    one_time_players games + returning_players games = (uniquePlayerList games).length := by
  have hlen : (player_games games).length = (uniquePlayerList games).length := by
    rw [← player_games_fst, List.length_map]
  unfold one_time_players returning_players
  rw [← hlen]
  exact countP_partition (player_games games) (fun p => p.2.length)
    (fun p hp => by simpa using player_games_vals_ne_nil games p hp)

theorem super_le_returning (games : List Game) :
    super_engaged games ≤ returning_players games := by
  unfold super_engaged returning_players
  apply List.countP_mono_left
  intro p _ hp
  simp only [decide_eq_true_eq] at hp ⊢
  omega

end MobeeStats

namespace Mobee8

open MobeeStats (insertUniq anyMap)

theorem updater_fst (av : Option String) (e sc : ℕ) (pid : String)
    (l : List (String × PlayerStat)) :
    (l.map (fun p => if p.1 = pid then (p.1, m8ApplyGame av e sc p.2) else p)).map Prod.fst
      = l.map Prod.fst := by
  rw [List.map_map]
  apply List.map_congr_left
  intro p _
  by_cases hh : p.1 = pid <;> simp [hh]

theorem m8ScoreStep_fst (av : Option String) (e : ℕ) (acc : List (String × PlayerStat))
    (pid : String) (sc : ℕ) :
    (m8ScoreStep av e acc pid sc).map Prod.fst = insertUniq (acc.map Prod.fst) pid := by
  unfold m8ScoreStep insertUniq
  by_cases h : acc.any (fun p => p.1 = pid) = true
  · have h2 : (acc.map Prod.fst).any (fun y => y = pid) = true := by
      rw [anyMap]
      exact h
    rw [if_pos h, if_pos h2]
    exact updater_fst av e sc pid acc
  · have h2 : ¬ ((acc.map Prod.fst).any (fun y => y = pid) = true) := by
      rw [anyMap]
      exact h
    rw [if_neg h, if_neg h2, updater_fst av e sc pid (acc ++ [(pid, PlayerStat.init)]),
      List.map_append]
    rfl

theorem m8_player_stats_fst (events : List M8Event) :
    (m8_player_stats events).map Prod.fst = m8_unique_players events := by
  unfold m8_player_stats m8_unique_players
  have inner : ∀ (qs : List (String × ℕ)) (f : String → Option String) (e : ℕ)
      (acc : List (String × PlayerStat)),
      ((qs.foldl (fun a q => m8ScoreStep (f q.1) e a q.1 q.2) acc).map Prod.fst)
        = qs.foldl (fun a q => insertUniq a q.1) (acc.map Prod.fst) := by
    intro qs f e
    induction qs with
    | nil =>
      intro acc
      rfl
    | cons q qs ih =>
      intro acc
      rw [List.foldl_cons, List.foldl_cons, ih, m8ScoreStep_fst]
  have outer : ∀ (evs : List M8Event) (acc : List (String × PlayerStat)),
      ((evs.foldl (fun acc ev =>
          ev.scores.foldl (fun a q => m8ScoreStep (m8Avatar ev q.1) (effTs ev) a q.1 q.2) acc)
        acc).map Prod.fst)
        = evs.foldl (fun acc ev => ev.scores.foldl (fun a q => insertUniq a q.1) acc)
            (acc.map Prod.fst) := by
    intro evs
    induction evs with
    | nil =>
      intro acc
      rfl
    | cons ev evs ih =>
      intro acc
      rw [List.foldl_cons, List.foldl_cons, ih, inner]
  exact outer events []

theorem m8ApplyGame_games (av : Option String) (e sc : ℕ) (st : PlayerStat) :
    (m8ApplyGame av e sc st).games = st.games + 1 := by
  unfold m8ApplyGame
  dsimp only
  split <;> rfl

theorem m8ScoreStep_games_pos (av : Option String) (e : ℕ) (acc : List (String × PlayerStat))
    (pid : String) (sc : ℕ) (hacc : ∀ p ∈ acc, 1 ≤ p.2.games) :
    ∀ p ∈ m8ScoreStep av e acc pid sc, 1 ≤ p.2.games := by
  intro p hp
  unfold m8ScoreStep at hp
  rcases List.mem_map.mp hp with ⟨q, hq, rfl⟩
  have hq2 : q ∈ acc ∨ q = (pid, PlayerStat.init) := by
    split at hq
    · exact Or.inl hq
    · rcases List.mem_append.mp hq with h | h
      · exact Or.inl h
      · exact Or.inr (List.mem_singleton.mp h)
  by_cases h : q.1 = pid
  · rw [if_pos h]
    show 1 ≤ (m8ApplyGame av e sc q.2).games
    rw [m8ApplyGame_games]
    omega
  · rw [if_neg h]
    rcases hq2 with h2 | h2
    · exact hacc q h2
    · exact absurd (by rw [h2]) h

theorem m8_player_stats_games_pos (events : List M8Event) :
    ∀ p ∈ m8_player_stats events, 1 ≤ p.2.games := by
  unfold m8_player_stats
  have inner : ∀ (qs : List (String × ℕ)) (f : String → Option String) (e : ℕ)
      (acc : List (String × PlayerStat)), (∀ p ∈ acc, 1 ≤ p.2.games) →
      ∀ p ∈ qs.foldl (fun a q => m8ScoreStep (f q.1) e a q.1 q.2) acc, 1 ≤ p.2.games := by
    intro qs f e
    induction qs with
    | nil =>
      intro acc hacc
      simpa using hacc
    | cons q qs ih =>
      intro acc hacc
      rw [List.foldl_cons]
      exact ih _ (m8ScoreStep_games_pos _ _ _ _ _ hacc)
  have outer : ∀ (evs : List M8Event) (acc : List (String × PlayerStat)),
      (∀ p ∈ acc, 1 ≤ p.2.games) →
      ∀ p ∈ evs.foldl (fun acc ev =>
          ev.scores.foldl (fun a q => m8ScoreStep (m8Avatar ev q.1) (effTs ev) a q.1 q.2) acc)
        acc, 1 ≤ p.2.games := by
    intro evs
    induction evs with
    | nil =>
      intro acc hacc
      simpa using hacc
    | cons ev evs ih =>
      intro acc hacc
      rw [List.foldl_cons]
      exact ih _ (inner _ _ _ _ hacc)
  exact outer events [] (by simp)

end Mobee8

namespace Mobee8

theorem m8_engagement_partition (events : List M8Event) :
    m8_one_time events + m8_returning events = (m8_unique_players events).length := by
  have hlen : (m8_player_stats events).length = (m8_unique_players events).length := by
    rw [← m8_player_stats_fst, List.length_map]
  unfold m8_one_time m8_returning
  rw [← hlen]
  exact MobeeStats.countP_partition (m8_player_stats events) (fun p => p.2.games)
    (fun p hp => Nat.one_le_iff_ne_zero.mp (m8_player_stats_games_pos events p hp))

theorem m8_super_le_returning (events : List M8Event) :
    m8_super_engaged events ≤ m8_returning events := by
  unfold m8_super_engaged m8_returning
  apply List.countP_mono_left
  intro p _ hp
  simp only [decide_eq_true_eq] at hp ⊢
  omega

end Mobee8

namespace MobeeStats

/-- Claim **C5**: in both aggregators, one-time and returning players partition
the distinct players (`one_time + returning = unique_players`), and every
super-engaged player (≥ 10 games) is also counted as returning. -/
theorem claim_c5_engagement :
    (∀ games : List Game,
      one_time_players games + returning_players games = (uniquePlayerList games).length ∧
      super_engaged games ≤ returning_players games) ∧
    (∀ events : List Mobee8.M8Event,
      Mobee8.m8_one_time events + Mobee8.m8_returning events
        = (Mobee8.m8_unique_players events).length ∧
      Mobee8.m8_super_engaged events ≤ Mobee8.m8_returning events) ∧
    (∀ games : List Game, games ≠ [] → ∃ st : Stats, analyze_games games = some st ∧
      st.one_time_players + st.returning_players = st.unique_players ∧
      st.super_engaged ≤ st.returning_players) := by
  refine ⟨fun games => ⟨engagement_partition games, super_le_returning games⟩,
    fun events => ⟨Mobee8.m8_engagement_partition events, Mobee8.m8_super_le_returning events⟩,
    fun games hne => ?_⟩
  rw [analyze_games, if_neg hne]
  exact ⟨_, rfl, engagement_partition games, super_le_returning games⟩

/-- Witness for C5 at a concrete input. -/
theorem claim_c5_engagement_witness :
    ∃ st : Stats, analyze_games demoGames = some st ∧
      st.one_time_players + st.returning_players = st.unique_players ∧
      st.super_engaged ≤ st.returning_players :=
  claim_c5_engagement.2.2 demoGames (by decide)

end MobeeStats

namespace MobeeStats

/-- Claim **C6**: the aggregator is a pure function — its embedding performs no
I/O and the result is fully determined by the input, so aggregating equal
inputs yields identical snapshots (field values and list orderings). -/
theorem claim_c6_determinism (games1 games2 : List Game) (h : games1 = games2) :
    analyze_games games1 = analyze_games games2 := by
  rw [h]

/-- Witness for C6. -/
theorem claim_c6_determinism_witness :
    analyze_games demoGames = analyze_games demoGames :=
  claim_c6_determinism demoGames demoGames rfl

/-- Claim **C1** (amended part): `analyze_games` returns the explicit no-data
value `none` exactly on the empty sequence and a snapshot otherwise,
with the score-list length positive in the snapshot case, so the
average/median divisors are nonzero. -/
theorem claim_c1_empty :
    (∀ games : List Game, analyze_games games = none ↔ games = []) ∧
    (∀ games : List Game, games ≠ [] →
      ∃ st : Stats, analyze_games games = some st ∧ 0 < (scores games).length) := by
  constructor
  · intro games
    rw [analyze_games]
    by_cases h : games = [] <;> simp [h]
  · intro games hne
    rw [analyze_games, if_neg hne]
    exact ⟨_, rfl, List.length_pos.mpr (scores_ne_nil games hne)⟩

/-- Witness for C1. -/
theorem claim_c1_empty_witness :
    analyze_games ([] : List Game) = none ∧
    ∃ st : Stats, analyze_games demoGames = some st ∧ 0 < (scores demoGames).length :=
  ⟨(claim_c1_empty.1 []).mpr rfl, claim_c1_empty.2 demoGames (by decide)⟩

/-- Claim **C1** counterexample: the mobee8 aggregation of the empty event
sequence is not a distinct no-data value but a zero-filled snapshot
(its result type is the snapshot itself and every field is zero/empty). -/
theorem claim_c1_counterexample :
    (Mobee8.fetch_variant_data true []).total_games = 0 ∧
    (Mobee8.fetch_variant_data true []).unique_players = 0 ∧
    (Mobee8.fetch_variant_data true []).avg_score = 0 ∧
    (Mobee8.fetch_variant_data true []).median_score = 0 ∧
    (Mobee8.fetch_variant_data true []).max_score = 0 ∧
    (Mobee8.fetch_variant_data true []).min_score = 0 ∧
    (Mobee8.fetch_variant_data true []).score_distribution
      = [("0-5", 0), ("6-10", 0), ("11-15", 0), ("16-20", 0), ("20+", 0)] ∧
    (Mobee8.fetch_variant_data true []).daily_stats = [] ∧
    (Mobee8.fetch_variant_data true []).top_players_by_games = [] ∧
    (Mobee8.fetch_variant_data true []).one_time = 0 ∧
    (Mobee8.fetch_variant_data true []).returning = 0 ∧
    (Mobee8.fetch_variant_data true []).super_engaged = 0 := by
  refine ⟨rfl, rfl, rfl, ?_, rfl, rfl, by decide, rfl, rfl, rfl, rfl, rfl⟩
  show Mobee8.m8_median (Mobee8.m8_all_scores []) = 0
  norm_num [Mobee8.m8_median, Mobee8.m8_median_raw, Mobee8.m8_all_scores, Mobee8.round2]

end MobeeStats

namespace MobeeStats

/-- Claim **C7**: the parser returns `none` exactly when the score pattern
cannot be located; when a score is found the event is always produced,
with every other field falling back to its own default when its own
pattern fails; and the `main` loop contributes nothing for a line without
a score marker, so such lines are excluded from the event set end to
end. -/
theorem claim_c7_parse_none :
    (∀ (text : String) (ts : Option ℕ),
      parse_game_notification text ts = none ↔ searchScore text.data = none) ∧
    (∀ (text : String) (ts : Option ℕ) (n : ℕ), searchScore text.data = some n →
      ∃ e : Game, parse_game_notification text ts = some e ∧ e.score = n ∧
        (searchLoc text.data = none → e.city = "Unknown" ∧ e.country = "Unknown") ∧
        (searchPlatform text.data = none → e.platform = "Unknown") ∧
        (searchUser text.data = none → e.user_code = "Unknown") ∧
        (searchGameCode text.data = none → e.game_code = "Unknown") ∧
        (searchGameNum text.data = none → e.game_number = 0)) ∧
    (∀ (acc : List Game) (msg : SlackMsg),
      containsSeq ("Score:".data) msg.text.data = false →
      containsSeq ("HIGH SCORE:".data) msg.text.data = false →
      main_step acc msg = acc) := by
  refine ⟨?_, ?_, ?_⟩
  · intro text ts
    unfold parse_game_notification
    cases h : searchScore text.data <;> simp [h]
  · intro text ts n h
    have he : parse_game_notification text ts = some
        { is_high_score := containsSeq trophyMarker text.data ||
            containsSeq ("HIGH SCORE:".data) text.data ||
            containsSeq (":trophy: HIGH SCORE:".data) text.data
          score := n
          city := ((searchLoc text.data).map (fun g => pyStrip g.1)).getD "Unknown"
          country := ((searchLoc text.data).map (fun g => pyStrip g.2)).getD "Unknown"
          platform := ((searchPlatform text.data).map pyStrip).getD "Unknown"
          user_code := ((searchUser text.data).map pyStrip).getD "Unknown"
          game_number := (searchGameNum text.data).getD 0
          game_code := ((searchGameCode text.data).map String.mk).getD "Unknown"
          timestamp := ts } := by
      unfold parse_game_notification
      simp only [h]
    refine ⟨_, he, rfl, ?_, ?_, ?_, ?_, ?_⟩ <;> intro hnone <;> simp [hnone]
  · intro acc msg h1 h2
    unfold main_step
    simp [h1, h2]

/-- Witness for C7 at concrete lines. -/
theorem claim_c7_parse_none_witness :
    parse_game_notification "no marker here" none = none ∧
    main_step [] { text := "no marker here", ts := 5 } = [] ∧
    ∃ e : Game, parse_game_notification "Score: 12" none = some e ∧
      e.score = 12 ∧ e.city = "Unknown" := by
  refine ⟨(claim_c7_parse_none.1 "no marker here" none).mpr (by decide),
    claim_c7_parse_none.2.2 [] _ (by decide) (by decide), ?_⟩
  obtain ⟨e, he, hs, hcity, _⟩ := claim_c7_parse_none.2.1 "Score: 12" none 12 (by decide)
  exact ⟨e, he, hs, (hcity (by decide)).1⟩

end MobeeStats

namespace MobeeStats

theorem updDaily_sum (acc : List DailyAcc) (d : ℤ) (u : String) :
    ((acc.map (fun e => if e.day = d then { e with games := e.games + 1, players := insertUniq e.players u } else e)).map (fun e => e.games)).sum
      = (acc.map (fun e => e.games)).sum + acc.countP (fun e => decide (e.day = d)) := by
  induction acc with
  | nil => rfl
  | cons e acc ih =>
    rw [List.map_cons, List.map_cons, List.map_cons, List.sum_cons, List.sum_cons,
      List.countP_cons, ih]
    by_cases h : e.day = d <;> simp [h] <;> omega

theorem updDaily_countP (acc : List DailyAcc) (d0 d : ℤ) (u : String) :
    ((acc.map (fun e => if e.day = d0 then { e with games := e.games + 1, players := insertUniq e.players u } else e)).countP (fun e => decide (e.day = d)))
      = acc.countP (fun e => decide (e.day = d)) := by
  rw [List.countP_map]
  apply List.countP_congr
  intro e _
  by_cases h2 : e.day = d0 <;> simp [Function.comp, h2]

theorem daily_map_main (games : List Game) :
    (∀ d : ℤ, (daily_map games).countP (fun e => decide (e.day = d)) =
      (if games.any (fun g => tsTruthy g.timestamp && decide (dayOf (g.timestamp.getD 0) = d))
        then 1 else 0)) ∧
    ((daily_map games).map (fun e => e.games)).sum
      = games.countP (fun g => tsTruthy g.timestamp) := by
  induction games using List.reverseRecOn with
  | nil => exact ⟨fun d => rfl, rfl⟩
  | append_singleton gs g ih =>
    obtain ⟨ihc, ihs⟩ := ih
    have hfold : daily_map (gs ++ [g]) = addDaily (daily_map gs) g := by
      unfold daily_map
      rw [List.foldl_append]
      rfl
    by_cases ht : tsTruthy g.timestamp = true
    case neg =>
      have ht2 : tsTruthy g.timestamp = false := by
        revert ht
        cases tsTruthy g.timestamp <;> simp
      have hstep : addDaily (daily_map gs) g = daily_map gs := by
        unfold addDaily
        rw [if_neg ht]
      constructor
      · intro d
        rw [hfold, hstep, ihc d]
        have hR : (gs ++ [g]).any
              (fun g2 => tsTruthy g2.timestamp && decide (dayOf (g2.timestamp.getD 0) = d))
            = gs.any (fun g2 => tsTruthy g2.timestamp && decide (dayOf (g2.timestamp.getD 0) = d)) := by
          simp [List.any_append, ht2]
        rw [hR]
      · rw [hfold, hstep, ihs, List.countP_append]
        simp [ht2]
    case pos =>
      by_cases hpres : ((daily_map gs).any (fun e => e.day = dayOf (g.timestamp.getD 0))) = true
      · have hstep : addDaily (daily_map gs) g =
            (daily_map gs).map (fun e => if e.day = dayOf (g.timestamp.getD 0) then { e with games := e.games + 1, players := insertUniq e.players g.user_code } else e) := by
          unfold addDaily
          rw [if_pos ht, if_pos hpres]
        have hex : ∃ e ∈ daily_map gs, e.day = dayOf (g.timestamp.getD 0) := by
          simpa using hpres
        have hcpos : 0 < (daily_map gs).countP
            (fun e => decide (e.day = dayOf (g.timestamp.getD 0))) := by
          rw [List.countP_pos_iff]
          obtain ⟨e, he, hd⟩ := hex
          exact ⟨e, he, by simp [hd]⟩
        have hgs_any : gs.any (fun g2 => tsTruthy g2.timestamp &&
            decide (dayOf (g2.timestamp.getD 0) = dayOf (g.timestamp.getD 0))) = true := by
          by_contra hno
          have hc := ihc (dayOf (g.timestamp.getD 0))
          rw [if_neg hno] at hc
          omega
        constructor
        · intro d
          rw [hfold, hstep, updDaily_countP, ihc d]
          by_cases hd : dayOf (g.timestamp.getD 0) = d
          · have h1 : gs.any (fun g2 => tsTruthy g2.timestamp &&
                decide (dayOf (g2.timestamp.getD 0) = d)) = true := by
              rw [← hd]
              exact hgs_any
            have h2 : (gs ++ [g]).any (fun g2 => tsTruthy g2.timestamp &&
                decide (dayOf (g2.timestamp.getD 0) = d)) = true := by
              simp [List.any_append, h1]
            rw [if_pos h1, if_pos h2]
          · have h2 : (gs ++ [g]).any (fun g2 => tsTruthy g2.timestamp &&
                  decide (dayOf (g2.timestamp.getD 0) = d))
                = gs.any (fun g2 => tsTruthy g2.timestamp &&
                    decide (dayOf (g2.timestamp.getD 0) = d)) := by
              simp [List.any_append, ht, hd]
            rw [h2]
        · rw [hfold, hstep, updDaily_sum, ihs, List.countP_append]
          have hc1 : (daily_map gs).countP
              (fun e => decide (e.day = dayOf (g.timestamp.getD 0))) = 1 := by
            rw [ihc _, if_pos hgs_any]
          rw [hc1]
          simp [ht]
      · have hstep : addDaily (daily_map gs) g = daily_map gs ++
            [{ day := dayOf (g.timestamp.getD 0), games := 1, players := [g.user_code] }] := by
          unfold addDaily
          rw [if_pos ht, if_neg hpres]
        have hnogs : gs.any (fun g2 => tsTruthy g2.timestamp &&
            decide (dayOf (g2.timestamp.getD 0) = dayOf (g.timestamp.getD 0))) = false := by
          by_contra hyes
          have hyes2 : gs.any (fun g2 => tsTruthy g2.timestamp &&
              decide (dayOf (g2.timestamp.getD 0) = dayOf (g.timestamp.getD 0))) = true := by
            revert hyes
            cases gs.any (fun g2 => tsTruthy g2.timestamp &&
              decide (dayOf (g2.timestamp.getD 0) = dayOf (g.timestamp.getD 0))) <;> simp
          have hc := ihc (dayOf (g.timestamp.getD 0))
          rw [if_pos hyes2] at hc
          have hx : 0 < (daily_map gs).countP
              (fun e => decide (e.day = dayOf (g.timestamp.getD 0))) := by omega
          rw [List.countP_pos_iff] at hx
          obtain ⟨e, he, hd⟩ := hx
          simp only [decide_eq_true_eq] at hd
          refine absurd ?_ hpres
          simp only [List.any_eq_true]
          exact ⟨e, he, by simp [hd]⟩
        constructor
        · intro d
          rw [hfold, hstep, List.countP_append, ihc d]
          by_cases hd : dayOf (g.timestamp.getD 0) = d
          · have h1 : gs.any (fun g2 => tsTruthy g2.timestamp &&
                decide (dayOf (g2.timestamp.getD 0) = d)) = false := by
              rw [← hd]
              exact hnogs
            have h2 : (gs ++ [g]).any (fun g2 => tsTruthy g2.timestamp &&
                decide (dayOf (g2.timestamp.getD 0) = d)) = true := by
              simp [List.any_append, ht, hd]
            rw [if_neg (by simp [h1]), if_pos h2]
            simp [List.countP_cons, hd]
          · have h2 : (gs ++ [g]).any (fun g2 => tsTruthy g2.timestamp &&
                  decide (dayOf (g2.timestamp.getD 0) = d))
                = gs.any (fun g2 => tsTruthy g2.timestamp &&
                    decide (dayOf (g2.timestamp.getD 0) = d)) := by
              simp [List.any_append, ht, hd]
            rw [h2]
            simp [List.countP_cons, hd]
        · rw [hfold, hstep, List.map_append, List.sum_append, ihs, List.countP_append]
          simp [ht]

end MobeeStats

namespace MobeeStats

theorem daily_data_countP (games : List Game) (d : ℤ) :
    (daily_data games).countP (fun e => decide (e.day = d))
      = (daily_map games).countP (fun e => decide (e.day = d)) := by
  unfold daily_data
  rw [List.countP_map]
  exact (List.perm_insertionSort _ _).countP_eq _

theorem daily_data_sum (games : List Game) :
    ((daily_data games).map (fun e => e.games)).sum
      = ((daily_map games).map (fun e => e.games)).sum := by
  unfold daily_data
  rw [List.map_map]
  exact ((List.perm_insertionSort (fun a b : DailyAcc => a.day ≤ b.day)
    (daily_map games)).map (fun e => e.games)).sum_eq

theorem daily_data_sorted (games : List Game) :
    (daily_data games).Pairwise (fun a b => a.day ≤ b.day) := by
  unfold daily_data
  exact List.Pairwise.map _ (fun a b h => h)
    (sorted_asc_insertionSort_int (fun e : DailyAcc => e.day) (daily_map games))

theorem chart_window_spec (daily : List Daily) (last : Daily)
    (hlast : daily.getLast? = some last) :
    (chart_daily_window daily).length = 30 ∧
    (∀ i : ℕ, i < 30 →
      ((chart_daily_window daily).getD i { day := 0, games := 0, unique_players := 0 }).day
          = last.day - 29 + i ∧
      ((daily.any (fun e => e.day = last.day - 29 + (i : ℤ))) = false →
        ((chart_daily_window daily).getD i { day := 0, games := 0, unique_players := 0 }).games = 0 ∧
        ((chart_daily_window daily).getD i { day := 0, games := 0, unique_players := 0 }).unique_players = 0)) := by
  have hcw : chart_daily_window daily = (List.range 30).map (fun i : ℕ =>
      match daily.find? (fun e => decide (e.day = last.day - (29 - (i : ℤ)))) with
      | some e => e
      | none => { day := last.day - (29 - (i : ℤ)), games := 0, unique_players := 0 }) := by
    unfold chart_daily_window
    rw [hlast]
  constructor
  · rw [hcw, List.length_map, List.length_range]
  · intro i hi
    have hget : (chart_daily_window daily).getD i { day := 0, games := 0, unique_players := 0 }
        = (match daily.find? (fun e => decide (e.day = last.day - (29 - (i : ℤ)))) with
          | some e => e
          | none => { day := last.day - (29 - (i : ℤ)), games := 0, unique_players := 0 }) := by
      rw [hcw, List.getD_eq_getElem?_getD, List.getElem?_map, List.getElem?_range hi]
      rfl
    cases hfind : daily.find? (fun e => decide (e.day = last.day - (29 - (i : ℤ)))) with
    | some e =>
      have hpred := List.find?_some hfind
      simp only [decide_eq_true_eq] at hpred
      have hmem := List.mem_of_find?_eq_some hfind
      constructor
      · rw [hget, hfind]
        dsimp only
        omega
      · intro hany
        exfalso
        have hT : daily.any (fun e => e.day = last.day - 29 + (i : ℤ)) = true := by
          simp only [List.any_eq_true]
          refine ⟨e, hmem, ?_⟩
          simp only [decide_eq_true_eq]
          omega
        rw [hT] at hany
        cases hany
    | none =>
      constructor
      · rw [hget, hfind]
        dsimp only
        omega
      · intro _
        rw [hget, hfind]
        exact ⟨rfl, rfl⟩

/-- Claim **C8** (amended part): `analyze_games`' dailyStats is sorted
ascending by day and has exactly one entry for each (UTC) day carrying at
least one event with a truthy timestamp; the last-30-days chart window of
`create_charts` always has 30 consecutive days ending at the last
reported date, with days absent from dailyStats reported as zero-filled
entries rather than omitted. -/
theorem claim_c8_daily (games : List Game) :
    (daily_data games).Pairwise (fun a b => a.day ≤ b.day) ∧
    (∀ d : ℤ, (daily_data games).countP (fun e => decide (e.day = d)) =
      (if games.any (fun g => tsTruthy g.timestamp && decide (dayOf (g.timestamp.getD 0) = d))
        then 1 else 0)) ∧
    (∀ last : Daily, (daily_data games).getLast? = some last →
      (chart_daily_window (daily_data games)).length = 30 ∧
      (∀ i : ℕ, i < 30 →
        ((chart_daily_window (daily_data games)).getD i
            { day := 0, games := 0, unique_players := 0 }).day = last.day - 29 + i ∧
        (((daily_data games).any (fun e => e.day = last.day - 29 + (i : ℤ))) = false →
          ((chart_daily_window (daily_data games)).getD i
            { day := 0, games := 0, unique_players := 0 }).games = 0 ∧
          ((chart_daily_window (daily_data games)).getD i
            { day := 0, games := 0, unique_players := 0 }).unique_players = 0))) := by
  refine ⟨daily_data_sorted games, fun d => ?_, fun last hlast => chart_window_spec _ last hlast⟩
  rw [daily_data_countP]
  exact (daily_map_main games).1 d

/-- Witness for C8 at a concrete input: two events on days 1 and 2; the
window has 30 entries and its first day (day `-27`) is zero-filled. -/
theorem claim_c8_daily_witness :
    (daily_data demoGames).Pairwise (fun a b => a.day ≤ b.day) ∧
    (chart_daily_window (daily_data demoGames)).length = 30 ∧
    ((chart_daily_window (daily_data demoGames)).getD 0
      { day := 0, games := 0, unique_players := 0 }).games = 0 := by
  have h := claim_c8_daily demoGames
  have hlast : (daily_data demoGames).getLast?
      = some { day := 2, games := 1, unique_players := 1 } := by decide
  have h3 := h.2.2 _ hlast
  refine ⟨h.1, h3.1, ?_⟩
  exact ((h3.2 0 (by omega)).2 (by decide)).1

/-- Claim **C8** counterexample: a structured record with an empty scores map
expands to zero game events yet still creates a daily entry (with zero
counts) in the mobee8 aggregation, so dailyStats does not contain entries
only for days with at least one event. -/
theorem claim_c8_counterexample :
    Mobee8.m8_daily_stats [Mobee8.demoEmptyScores]
      = [{ day := 1, games := 0, unique_players := 0 }] ∧
    Mobee8.m8_total_games [Mobee8.demoEmptyScores] = 0 :=
  ⟨by decide, rfl⟩

end MobeeStats

namespace MobeeStats

theorem clearTs_scores (games : List Game) : scores (games.map clearTs) = scores games := by
  unfold scores clearTs
  rw [List.map_map]
  rfl

theorem clearTs_player_games (games : List Game) :
    player_games (games.map clearTs) = player_games games := by
  unfold player_games
  have h : ∀ acc, (games.map clearTs).foldl addGame acc = games.foldl addGame acc := by
    intro acc
    induction games generalizing acc with
    | nil => rfl
    | cons g gs ih =>
      rw [List.map_cons, List.foldl_cons, List.foldl_cons]
      have hg : addGame acc (clearTs g) = addGame acc g := rfl
      rw [hg, ih]
  exact h []

theorem clearTs_score_ranges (games : List Game) :
    score_ranges (games.map clearTs) = score_ranges games := by
  unfold score_ranges
  rw [clearTs_scores]

theorem clearTs_unique (games : List Game) :
    uniquePlayerList (games.map clearTs) = uniquePlayerList games := by
  unfold uniquePlayerList
  rw [List.map_map]
  rfl

/-- Claim **C10** (amended part): the sum of dailyStats game counts equals the
number of events with a truthy (present and nonzero) timestamp — hence it
is at most `total_games`, with equality when every event's timestamp is
truthy — while every scalar rollup input (score list, player grouping,
score distribution, distinct players) is unchanged when timestamps are
removed, i.e. events without timestamps are still fully counted there. -/
theorem claim_c10_timestamps (games : List Game) :
    ((daily_data games).map (fun e => e.games)).sum
        = games.countP (fun g => tsTruthy g.timestamp) ∧
    ((daily_data games).map (fun e => e.games)).sum ≤ games.length ∧
    ((∀ g ∈ games, tsTruthy g.timestamp = true) →
      ((daily_data games).map (fun e => e.games)).sum = games.length) ∧
    scores (games.map clearTs) = scores games ∧
    player_games (games.map clearTs) = player_games games ∧
    score_ranges (games.map clearTs) = score_ranges games ∧
    uniquePlayerList (games.map clearTs) = uniquePlayerList games := by
  have hsum : ((daily_data games).map (fun e => e.games)).sum
      = games.countP (fun g => tsTruthy g.timestamp) := by
    rw [daily_data_sum]
    exact (daily_map_main games).2
  refine ⟨hsum, ?_, ?_, clearTs_scores games, clearTs_player_games games,
    clearTs_score_ranges games, clearTs_unique games⟩
  · rw [hsum]
    exact List.countP_le_length _
  · intro hall
    rw [hsum]
    exact List.countP_eq_length.mpr hall

/-- Witness for C10: at the demo input all timestamps are truthy and the
daily sums equal the total. -/
theorem claim_c10_timestamps_witness :
    ((daily_data demoGames).map (fun e => e.games)).sum = demoGames.length :=
  (claim_c10_timestamps demoGames).2.2.1 (by decide)

/-- Claim **C10** counterexample: an event that carries a timestamp equal to
zero (exactly what `main` produces for a message without a `ts` field) is
excluded from dailyStats by the truthiness test, so the daily game counts
sum to 0 while total_games is 1 — refuting equality under "every event
carries a timestamp". -/
theorem claim_c10_counterexample :
    demoTs0.timestamp ≠ none ∧
    ((daily_data [demoTs0]).map (fun e => e.games)).sum = 0 ∧
    (∃ st : Stats, analyze_games [demoTs0] = some st ∧ st.total_games = 1) := by
  refine ⟨by decide, by decide, ?_⟩
  rw [analyze_games, if_neg (by decide)]
  exact ⟨_, rfl, rfl⟩

end MobeeStats

namespace Mobee8

theorem findStat_nil (pid : String) : findStat [] pid = none := rfl

theorem findStat_cons (p : String × PlayerStat) (acc : List (String × PlayerStat))
    (pid : String) :
    findStat (p :: acc) pid = if p.1 = pid then some p.2 else findStat acc pid := by
  unfold findStat
  by_cases h : p.1 = pid
  · rw [List.find?_cons_of_pos _ (by simp [h]), if_pos h]
    rfl
  · rw [List.find?_cons_of_neg _ (by simp [h]), if_neg h]

theorem any_eq_findStat_isSome (acc : List (String × PlayerStat)) (pid : String) :
    (acc.any (fun p => p.1 = pid)) = (findStat acc pid).isSome := by
  induction acc with
  | nil => rfl
  | cons p acc ih =>
    rw [List.any_cons, findStat_cons]
    by_cases h : p.1 = pid <;> simp [h, ih]

theorem findStat_update (acc : List (String × PlayerStat)) (pid t : String)
    (f : PlayerStat → PlayerStat) :
    findStat (acc.map (fun p => if p.1 = t then (p.1, f p.2) else p)) pid
      = if t = pid then (findStat acc pid).map f else findStat acc pid := by
  induction acc with
  | nil =>
    rw [List.map_nil, findStat_nil]
    split <;> rfl
  | cons p acc ih =>
    rw [List.map_cons, findStat_cons, findStat_cons]
    by_cases hp : p.1 = t
    · by_cases hq : p.1 = pid
      · have ht : t = pid := hp.symm.trans hq
        have ht2 : pid = t := ht.symm
        simp [hp, hq, ht]
      · have ht : ¬ (t = pid) := fun h => hq (hp.trans h)
        have ht2 : ¬ (pid = t) := fun h => ht h.symm
        simp [hp, hq, ht, ht2, ih]
    · by_cases hq : p.1 = pid
      · have ht : ¬ (t = pid) := fun h => hp (hq.trans h.symm)
        have ht2 : ¬ (pid = t) := fun h => ht h.symm
        simp [hp, hq, ht, ht2]
      · simp [hp, hq, ih]

theorem findStat_append_one (acc : List (String × PlayerStat)) (k : String) (v : PlayerStat)
    (pid : String) :
    findStat (acc ++ [(k, v)]) pid
      = (match findStat acc pid with
        | some w => some w
        | none => if k = pid then some v else none) := by
  induction acc with
  | nil =>
    rw [List.nil_append, findStat_cons, findStat_nil]
  | cons p acc ih =>
    rw [List.cons_append, findStat_cons, findStat_cons]
    by_cases h : p.1 = pid <;> simp [h, ih]

theorem m8ApplyGame_seen (av : Option String) (e sc : ℕ) (st : PlayerStat) :
    ((m8ApplyGame av e sc st).lastSeen, (m8ApplyGame av e sc st).lastAvatar)
      = avatarStep (st.lastSeen, st.lastAvatar) (e, av) := by
  unfold m8ApplyGame avatarStep
  dsimp only
  by_cases h : e > st.lastSeen
  · rw [if_pos h, if_pos h]
  · rw [if_neg h, if_neg h]

theorem findStat_m8ScoreStep_eq (av : Option String) (e : ℕ)
    (acc : List (String × PlayerStat)) (pid : String) (sc : ℕ) :
    findStat (m8ScoreStep av e acc pid sc) pid
      = some (m8ApplyGame av e sc ((findStat acc pid).getD PlayerStat.init)) := by
  unfold m8ScoreStep
  by_cases h : (acc.any (fun p => p.1 = pid)) = true
  · rw [if_pos h, findStat_update, if_pos rfl]
    have hsome : (findStat acc pid).isSome = true := by
      rw [← any_eq_findStat_isSome]
      exact h
    cases hfs : findStat acc pid with
    | none =>
      rw [hfs] at hsome
      cases hsome
    | some st => simp [hfs]
  · rw [if_neg h, findStat_update, if_pos rfl, findStat_append_one]
    have hnone : findStat acc pid = none := by
      have h2 : (findStat acc pid).isSome = false := by
        rw [← any_eq_findStat_isSome]
        revert h
        cases acc.any (fun p => p.1 = pid) <;> simp
      cases hfs : findStat acc pid with
      | none => rfl
      | some st =>
        rw [hfs] at h2
        cases h2
    rw [hnone]
    simp

theorem findStat_m8ScoreStep_ne (av : Option String) (e : ℕ)
    (acc : List (String × PlayerStat)) (pid q : String) (sc : ℕ) (h : pid ≠ q) :
    findStat (m8ScoreStep av e acc pid sc) q = findStat acc q := by
  unfold m8ScoreStep
  by_cases hp : (acc.any (fun p => p.1 = pid)) = true
  · rw [if_pos hp, findStat_update, if_neg h]
  · rw [if_neg hp, findStat_update, if_neg h, findStat_append_one]
    cases hfs : findStat acc q <;> simp [h]

theorem seenPair_m8ScoreStep (av : Option String) (e : ℕ)
    (acc : List (String × PlayerStat)) (pid : String) (sc : ℕ) :
    seenPair (findStat (m8ScoreStep av e acc pid sc) pid)
      = avatarStep (seenPair (findStat acc pid)) (e, av) := by
  rw [findStat_m8ScoreStep_eq]
  cases hfs : findStat acc pid with
  | none => exact m8ApplyGame_seen av e sc PlayerStat.init
  | some st => exact m8ApplyGame_seen av e sc st

theorem inner_fold_seen (qs : List (String × ℕ)) (ev : M8Event) (pid : String)
    (acc : List (String × PlayerStat)) :
    seenPair (findStat
        (qs.foldl (fun a q => m8ScoreStep (m8Avatar ev q.1) (effTs ev) a q.1 q.2) acc) pid)
      = ((qs.filter (fun q => decide (q.1 = pid))).map
          (fun _ => (effTs ev, m8Avatar ev pid))).foldl avatarStep
            (seenPair (findStat acc pid)) := by
  induction qs generalizing acc with
  | nil => rfl
  | cons q qs ih =>
    rw [List.foldl_cons]
    by_cases h : q.1 = pid
    · rw [List.filter_cons_of_pos (by simp [h]), List.map_cons, List.foldl_cons, ih]
      congr 1
      rw [← h, seenPair_m8ScoreStep]
    · rw [List.filter_cons_of_neg (by simp [h]), ih]
      rw [findStat_m8ScoreStep_ne _ _ _ _ _ _ h]

theorem m8_player_stats_seen (events : List M8Event) (pid : String) :
    seenPair (findStat (m8_player_stats events) pid)
      = (avatar_trace events pid).foldl avatarStep (0, none) := by
  unfold m8_player_stats
  have h : ∀ (evs : List M8Event) (acc : List (String × PlayerStat)),
      seenPair (findStat (evs.foldl (fun acc ev =>
          ev.scores.foldl (fun a q => m8ScoreStep (m8Avatar ev q.1) (effTs ev) a q.1 q.2) acc)
        acc) pid)
        = (avatar_trace evs pid).foldl avatarStep (seenPair (findStat acc pid)) := by
    intro evs
    induction evs with
    | nil =>
      intro acc
      rfl
    | cons ev evs ih =>
      intro acc
      rw [List.foldl_cons, ih, avatar_trace, List.foldl_append, inner_fold_seen]
  exact h events []

theorem avatar_fold_strict (tr : List (ℕ × Option String)) :
    ∀ (t0 : ℕ) (a0 : Option String), tr.Pairwise (fun a b => a.1 < b.1) →
      (∀ q ∈ tr, t0 < q.1) →
      (tr.foldl avatarStep (t0, a0)).2
        = (match (tr.filterMap carriedAvatar).getLast? with
          | some a => some a
          | none => a0) := by
  induction tr with
  | nil =>
    intro t0 a0 _ _
    rfl
  | cons q tr ih =>
    intro t0 a0 hp hgt
    have hq : t0 < q.1 := hgt q (by simp)
    rw [List.foldl_cons]
    have hstep : avatarStep (t0, a0) q
        = (q.1, match carriedAvatar q with | some a => some a | none => a0) := by
      unfold avatarStep carriedAvatar
      rw [if_pos hq]
      cases hq2 : q.2 with
      | none => rfl
      | some a => by_cases ha : a = "" <;> simp [ha]
    have hgt2 : ∀ r ∈ tr, q.1 < r.1 := (List.pairwise_cons.mp hp).1
    rw [hstep, ih q.1 _ (List.pairwise_cons.mp hp).2 hgt2, List.filterMap_cons]
    cases hc : carriedAvatar q with
    | none => rfl
    | some a =>
      cases hfm : tr.filterMap carriedAvatar with
      | nil => rfl
      | cons b l2 =>
        rw [List.getLast?_cons_cons]
        cases hgl : (b :: l2).getLast? with
        | none =>
          exfalso
          rw [List.getLast?_eq_none_iff] at hgl
          cases hgl
        | some x => rfl

/-- Claim **C9** (amended part): an event's avatar is recorded only when its
effective end-timestamp strictly exceeds the running maximum of the
player's previously processed end-timestamps — on an exact timestamp tie
the earlier-processed record is kept — so when the player's scored
occurrences have strictly increasing positive end-timestamps, the
recorded avatar is that of the last (equivalently latest) avatar-carrying
occurrence. -/
theorem claim_c9_avatar (events : List M8Event) (pid : String)
    (hmono : (avatar_trace events pid).Pairwise (fun a b => a.1 < b.1))
    (hpos : ∀ q ∈ avatar_trace events pid, 0 < q.1) :
    (seenPair (findStat (m8_player_stats events) pid)).2
        = ((avatar_trace events pid).filterMap carriedAvatar).getLast? ∧
    (∀ (t : ℕ) (a : Option String) (q : ℕ × Option String), q.1 ≤ t →
      avatarStep (t, a) q = (t, a)) := by
  constructor
  · rw [m8_player_stats_seen, avatar_fold_strict _ 0 none hmono hpos]
    cases ((avatar_trace events pid).filterMap carriedAvatar).getLast? <;> rfl
  · intro t a q h
    unfold avatarStep
    rw [if_neg (by omega)]

/-- Witness for C9: with strictly increasing end-timestamps the recorded
avatar is the one carried by the (only) avatar-carrying occurrence. -/
theorem claim_c9_avatar_witness :
    (seenPair (findStat (m8_player_stats demoM8) "p")).2 = some "A" := by
  have h := (claim_c9_avatar demoM8 "p" (by decide) (by decide)).1
  rw [h]
  decide

/-- Claim **C9** counterexample: processed out of timestamp order, the avatar
of the player's latest avatar-carrying event (per the claim, `"A"`) is
not recorded — the code keeps `none` because the older record's
timestamp does not exceed the running maximum — and on an exact
timestamp tie the first-processed (not last-processed) value is kept. -/
theorem claim_c9_counterexample :
    claim_latest_avatar demoShadow "p" = some "A" ∧
    (seenPair (findStat (m8_player_stats demoShadow) "p")).2 = none ∧
    avatarStep (5, some "B") (5, some "A") = (5, some "B") := by
  refine ⟨by decide, by decide, by decide⟩

end Mobee8
